import Mathlib

/-!
Shallow embedding of `download_models.py` from the mineru-api repository.

The script provisions machine-learning model artifacts on disk.  We model the
filesystem as an association list from paths (lists of name components) to
entries (files with a byte size and abstract content, directories, symlinks).
Strings of bytes are abstracted: a file carries its byte size and an abstract
content tag; JSON configuration files carry enough structure to model
`json.load` succeeding or failing and the truthiness of the
`formula-config.enable` key.

External effects are modelled explicitly:
  * `huggingface_hub.snapshot_download` is an oracle (`Oracle`): either it
    raises (`none`) or it populates the destination directory with a fixed
    tree of entries (`some tree`); the same oracle is used for every call in
    a run, matching a deterministic registry.
  * `os.symlink` either succeeds always or raises always (`Env.symlinkOk`),
    matching a filesystem with or without symlink support.
  * `shutil.move` is modelled as an atomic rename that replaces the
    destination subtree; in every call site of the script the destination is
    checked absent or freshly removed first.
  * logging (`print`), `show_disk_usage` and the purely informational
    directory listings are omitted: they read but never mutate state and no
    decision depends on them.

Paths through intermediate symlinks are resolved only at the final component
(fuel-bounded), which covers every resolution the script performs
(`os.path.islink` / `os.path.realpath` on the probed path itself).
-/

namespace MinerU

/-- A filesystem path, as a list of name components. -/
abbrev Path := List String

/-- Abstract file content.  `raw` is opaque non-JSON content (json.load
fails); `jsonNoKey` is valid JSON without a `formula-config.enable` key
(so the Python code falls back to the default `True`); `jsonEnable b` is
valid JSON whose `formula-config.enable` value has truthiness `b`;
`generatedConfig b` is the exact text `create_config` writes with formula
flag `b` (it parses like `jsonEnable b` but is a distinct byte string). -/
inductive FileContent where
  | raw (id : Nat)
  | jsonNoKey
  | jsonEnable (b : Bool)
  | generatedConfig (b : Bool)
deriving DecidableEq

/-- A directory entry: a file with byte size and content, a directory, or a
symbolic link storing its target path. -/
inductive Entry where
  | file (size : Nat) (content : FileContent)
  | dir
  | symlink (target : Path)
deriving DecidableEq

/-- The filesystem: a finite association list from paths to entries.  The
first binding for a path wins. -/
abbrev FS := List (Path × Entry)

/-- Look up the entry stored at a path (no symlink resolution). -/
def lookup : FS → Path → Option Entry
  | [], _ => none
  | (q, e) :: fs, p => if q = p then some e else lookup fs p

/-- `isUnder pre p` holds when `pre` is a prefix of `p` (so `p` is `pre`
itself or lies inside the subtree rooted at `pre`). -/
def isUnder : Path → Path → Bool
  | [], _ => true
  | _, [] => false
  | a :: as, b :: bs => a = b && isUnder as bs

/-- Remove the single entry at a path (`os.remove` on a file or symlink). -/
def removeEntry (fs : FS) (p : Path) : FS :=
  fs.filter (fun e => ¬ e.1 = p)

/-- Remove a path and everything beneath it (`shutil.rmtree`). -/
def removeSubtree (fs : FS) (p : Path) : FS :=
  fs.filter (fun e => ¬ isUnder p e.1)

/-- Set the entry at a path, replacing any previous binding. -/
def setEntry (fs : FS) (p : Path) (e : Entry) : FS :=
  (p, e) :: removeEntry fs p

/-- Rename the subtree rooted at `src` to `dst`, replacing anything that was
at `dst` (`shutil.move` in the call sites of this script, where the
destination is absent or has just been removed). -/
def moveSubtree (fs : FS) (src dst : Path) : FS :=
  (removeSubtree fs dst).map
    (fun e => if isUnder src e.1 then (dst ++ e.1.drop src.length, e.2) else e)

/-- The non-empty prefixes of a path, shortest first. -/
def ancestors (p : Path) : List Path :=
  (List.range p.length).map (fun i => p.take (i + 1))

/-- `os.makedirs(p, exist_ok=True)`: create a directory entry for every
missing prefix of `p`. -/
def mkdirp (fs : FS) (p : Path) : FS :=
  (ancestors p).foldl
    (fun acc q => if (lookup acc q).isSome then acc else (q, Entry.dir) :: acc) fs

/-- Resolve trailing symlinks with fuel (`os.path.realpath` on the probed
path; returns the last path reached even if nothing exists there). -/
def realpathFuel (fs : FS) : Nat → Path → Path
  | 0, p => p
  | fuel + 1, p =>
    match lookup fs p with
    | some (Entry.symlink t) => realpathFuel fs fuel t
    | _ => p

/-- `os.path.realpath` with enough fuel to chase any chain in `fs`. -/
def realpath (fs : FS) (p : Path) : Path :=
  realpathFuel fs (fs.length + 1) p

/-- `os.path.exists`: follows symlinks; a dangling symlink does not exist. -/
def pathExists (fs : FS) (p : Path) : Bool :=
  (lookup fs (realpath fs p)).isSome

/-- `os.path.islink`. -/
def islink (fs : FS) (p : Path) : Bool :=
  match lookup fs p with
  | some (Entry.symlink _) => true
  | _ => false

/-- `os.path.isdir`: follows symlinks. -/
def isdir (fs : FS) (p : Path) : Bool :=
  match lookup fs (realpath fs p) with
  | some Entry.dir => true
  | _ => false

/-- Byte size of an entry (`os.path.getsize` after resolution; directories
report their inode size, irrelevant to the 100 MB threshold). -/
def entrySize : Entry → Nat
  | Entry.file s _ => s
  | Entry.dir => 4096
  | Entry.symlink _ => 0

/-- `os.path.getsize` of a path (after symlink resolution; 0 if absent,
though the script always guards with `os.path.exists` first). -/
def getsize (fs : FS) (p : Path) : Nat :=
  match lookup fs (realpath fs p) with
  | some e => entrySize e
  | none => 0

/-- The immediate child names of a directory path: first components of the
relative paths of all entries strictly beneath it (`os.listdir`; order is
the entry order of the association list, deduplicated). -/
def childNames (fs : FS) (p : Path) : List String :=
  (fs.filterMap (fun e =>
    if isUnder p e.1 ∧ p.length < e.1.length then (e.1.drop p.length).head? else none)).dedup

/-! ### Fixed paths of the script -/

/-- `MODELS_DIR = "/root/.cache/models"` (default, no env override). -/
def models_dir : Path := ["root", ".cache", "models"]

/-- `CONFIG_PATH = "/root/magic-pdf.json"`. -/
def config_path : Path := ["root", "magic-pdf.json"]

/-- The repo-local config probed first by `is_formula_enabled`
(`os.path.join(os.path.dirname(__file__), "magic-pdf.json")`); the script
does not live under `/root/.cache`. -/
def repo_config_path : Path := ["app", "magic-pdf.json"]

/-- The staging directory `"/root/.cache/hf_download_temp"`. -/
def temp_download_dir : Path := ["root", ".cache", "hf_download_temp"]

/-- `HF_HOME = "/root/.cache/huggingface"`. -/
def hf_home : Path := ["root", ".cache", "huggingface"]

def mfr_dir : Path := models_dir ++ ["MFR"]
def unimernet_small_dir : Path := mfr_dir ++ ["unimernet_small"]
def layout_nested : Path := models_dir ++ ["Layout", "LayoutLMv3", "model_final.pth"]
def layout_flat : Path := models_dir ++ ["Layout", "model_final.pth"]
def layout_dir : Path := models_dir ++ ["Layout"]
def layoutlmv3_dir : Path := models_dir ++ ["Layout", "LayoutLMv3"]
def mfd_dir : Path := models_dir ++ ["MFD"]
def mfd_flat : Path := mfd_dir ++ ["weights.pt"]
def mfd_yolo : Path := mfd_dir ++ ["YOLO"]
def yolo_model : Path := mfd_yolo ++ ["yolo_v8_ft.pt"]

/-! ### is_formula_enabled -/

/-- `json.load` + `.get("formula-config", {}).get("enable", True)` on a file
content: `none` means the read/parse raised (caught and skipped). -/
def parseEnable : FileContent → Option Bool
  | FileContent.raw _ => none
  | FileContent.jsonNoKey => some true
  | FileContent.jsonEnable b => some b
  | FileContent.generatedConfig b => some b

/-- One iteration of the config-probing loop of `is_formula_enabled`:
`some b` when the path exists and opening + parsing yields truthiness `b`;
`none` when the path is absent or reading/parsing raises (opening a
directory raises too). -/
def readEnable (fs : FS) (p : Path) : Option Bool :=
  if pathExists fs p then
    match lookup fs (realpath fs p) with
    | some (Entry.file _ c) => parseEnable c
    | _ => none
  else none

/-- `is_formula_enabled` (lines 33–52): probe the repo-local config, then
`/root/magic-pdf.json`; first successfully parsed file wins; default `True`. -/
def is_formula_enabled (fs : FS) : Bool :=
  match readEnable fs repo_config_path with
  | some b => b
  | none =>
    match readEnable fs config_path with
    | some b => b
    | none => true

/-! ### check_models_exist -/

/-- `check_models_exist` (lines 55–79): the directory and both key model
files must exist; sizes are printed but never checked. -/
def check_models_exist (fs : FS) : Bool :=
  pathExists fs models_dir &&
    (pathExists fs (models_dir ++ ["Layout", "LayoutLMv3", "model_final.pth"]) &&
     pathExists fs (models_dir ++ ["MFD", "YOLO", "yolo_v8_ft.pt"]))

/-! ### check_unimernet_complete -/

/-- The 100 MB threshold comparison `size_mb > 100` of
`check_unimernet_complete`.  `os.path.getsize` returns an integer number of
bytes; `/ 1024 / 1024` divides exactly by powers of two, which IEEE-754
doubles represent without rounding for any size below 2^53, so the float
comparison coincides with the exact comparison `size > 100 * 1024 * 1024`. -/
def sizeAbove100MB (fs : FS) (p : Path) : Bool :=
  100 * 1024 * 1024 < getsize fs p

/-- `check_unimernet_complete` (lines 82–123): resolve `MFR/unimernet_small`
through a possible symlink, then require `pytorch_model.bin` (preferred) or
`pytorch_model.pth` to be strictly larger than 100 MB. -/
def check_unimernet_complete (fs : FS) : Bool :=
  if ¬ pathExists fs mfr_dir then false
  else
    let model_path :=
      if islink fs unimernet_small_dir then realpath fs unimernet_small_dir
      else unimernet_small_dir
    if ¬ pathExists fs model_path then false
    else if pathExists fs (model_path ++ ["pytorch_model.bin"]) then
      sizeAbove100MB fs (model_path ++ ["pytorch_model.bin"])
    else if pathExists fs (model_path ++ ["pytorch_model.pth"]) then
      sizeAbove100MB fs (model_path ++ ["pytorch_model.pth"])
    else false

/-! ### Environment and registry oracle -/

/-- Run-wide environment: the `--force` CLI flag and whether `os.symlink`
succeeds on this filesystem (it either works or raises for every call). -/
structure Env where
  force : Bool
  symlinkOk : Bool
deriving DecidableEq

/-- A snapshot tree returned by `snapshot_download`: entries with paths
relative to the destination directory. -/
abbrev SnapshotTree := List (Path × Entry)

/-- Registry oracle: the outcome of `snapshot_download` for each repository
(`none` = the call raises, `some tree` = the destination is populated with
`tree`).  Deterministic across calls within and across runs. -/
structure Oracle where
  baseFetch : Option SnapshotTree
  unimernetFetch : Option SnapshotTree

/-- Populate `dest` with a snapshot tree: create `dest` (and missing
parents), then write every entry of the tree beneath it. -/
def applySnapshot (fs : FS) (dest : Path) (tree : SnapshotTree) : FS :=
  tree.foldl (fun acc e => setEntry acc (dest ++ e.1) e.2) (mkdirp fs dest)

/-! ### create_symlink_safe -/

/-- `create_symlink_safe` (lines 193–209): remove an existing symlink at the
link path; refuse (return `false`) if a non-link entry occupies it; then
attempt `os.symlink(os.path.realpath(target), link)`.  On symlink failure
the function logs and returns `false` — there is no fallback of any kind. -/
def create_symlink_safe (env : Env) (fs : FS) (target_path link_path : Path) :
    FS × Bool :=
  if islink fs link_path then
    let fs1 := removeEntry fs link_path
    if env.symlinkOk then
      (setEntry fs1 link_path (Entry.symlink (realpath fs1 target_path)), true)
    else (fs1, false)
  else if pathExists fs link_path then (fs, false)
  else
    if env.symlinkOk then
      (setEntry fs link_path (Entry.symlink (realpath fs target_path)), true)
    else (fs, false)

/-! ### create_mfr_symlinks -/

/-- The `symlink_map` of `create_mfr_symlinks` (lines 245–254): alias names
all targeting `unimernet_small`, in dict insertion order. -/
def symlink_map : List String :=
  ["unimernet_hf_small_2503", "unimernet_small_2501",
   "unimernet_hf_base_2503", "unimernet_hf_tiny_2503",
   "unimernet_base_2501", "unimernet_tiny_2501"]

/-- One iteration of the alias loop of `create_mfr_symlinks` (lines
256–268): skip a real (non-symlink) directory at the alias path; skip when
the canonical target is absent; otherwise call `create_symlink_safe`. -/
def mfrAliasStep (env : Env) (fs : FS) (link_name : String) : FS :=
  let link_path := mfr_dir ++ [link_name]
  if pathExists fs link_path ∧ isdir fs link_path ∧ ¬ islink fs link_path then fs
  else if ¬ pathExists fs unimernet_small_dir then fs
  else (create_symlink_safe env fs unimernet_small_dir link_path).1

/-- `create_mfr_symlinks` (lines 212–284): no-op when `MFR` is absent or
`unimernet_small` is not an existing directory; otherwise run the alias loop
(the directory listing and trailing verification only print). -/
def create_mfr_symlinks (env : Env) (fs : FS) : FS :=
  if ¬ pathExists fs mfr_dir then fs
  else if pathExists fs unimernet_small_dir ∧ isdir fs unimernet_small_dir then
    symlink_map.foldl (mfrAliasStep env) fs
  else fs

/-! ### create_directory_structure -/

/-- The Layout repair of `create_directory_structure` (lines 315–329): when
`Layout/model_final.pth` is flat and the nested file absent, create
`Layout/LayoutLMv3/` and move every other child of `Layout/` into it (the
child list is snapshotted before moving, as `os.listdir` does). -/
def fixLayout (fs : FS) : FS :=
  if pathExists fs layout_flat ∧ ¬ pathExists fs layout_nested then
    let fs1 := mkdirp fs layoutlmv3_dir
    (childNames fs1 layout_dir).foldl
      (fun acc item =>
        if item ≠ "LayoutLMv3" then
          moveSubtree acc (layout_dir ++ [item]) (layoutlmv3_dir ++ [item])
        else acc) fs1
  else fs

/-- The MFD weight repair of `create_directory_structure` (lines 332–341):
move a flat `MFD/weights.pt` to `MFD/YOLO/yolo_v8_ft.pt` when the canonical
file is absent. -/
def fixMfdWeights (fs : FS) : FS :=
  if pathExists fs mfd_flat ∧ ¬ pathExists fs yolo_model then
    moveSubtree (mkdirp fs mfd_yolo) mfd_flat yolo_model
  else fs

/-- The stray-file sweep of `create_directory_structure` (lines 344–353):
move every non-directory child of `MFD/` other than `YOLO` into `MFD/YOLO/`
unless the destination already exists. -/
def fixMfdStray (fs : FS) : FS :=
  if pathExists fs mfd_dir then
    (childNames fs mfd_dir).foldl
      (fun acc item =>
        if item ≠ "YOLO" ∧ ¬ isdir acc (mfd_dir ++ [item]) then
          if ¬ pathExists acc (mfd_yolo ++ [item]) then
            moveSubtree (mkdirp acc mfd_yolo) (mfd_dir ++ [item]) (mfd_yolo ++ [item])
          else acc
        else acc) fs
  else fs

/-- `create_directory_structure` (lines 287–359): the structure display only
prints; then the three repairs, then the MFR alias pass when formula
recognition is enabled. -/
def create_directory_structure (env : Env) (fs : FS) : FS :=
  let fs1 := fixMfdStray (fixMfdWeights (fixLayout fs))
  if is_formula_enabled fs1 then create_mfr_symlinks env fs1 else fs1

/-! ### download_unimernet_models -/

/-- `download_unimernet_models` (lines 126–190): ensure `MFR/` exists,
delete any existing `unimernet_small` (a symlink is unlinked, a directory is
removed recursively) **before** downloading, then fetch from the official
repo; success requires `pytorch_model.bin` to exist afterwards (its size is
printed but not checked). -/
def download_unimernet_models (ora : Oracle) (fs : FS) : FS × Bool :=
  let fs1 := mkdirp fs mfr_dir
  let fs2 :=
    if pathExists fs1 unimernet_small_dir then
      if islink fs1 unimernet_small_dir then removeEntry fs1 unimernet_small_dir
      else removeSubtree fs1 unimernet_small_dir
    else fs1
  match ora.unimernetFetch with
  | none => (fs2, false)
  | some tree =>
    let fs3 := applySnapshot fs2 unimernet_small_dir tree
    if pathExists fs3 (unimernet_small_dir ++ ["pytorch_model.bin"]) then (fs3, true)
    else (fs3, false)

/-! ### download_models -/

/-- The per-directory move loop of `download_models` (lines 404–414). -/
def moveModelDirs (fs : FS) : FS × Bool :=
  ["Layout", "MFD", "MFR", "OCR", "TabRec"].foldl
    (fun (st : FS × Bool) d =>
      if pathExists st.1 (temp_download_dir ++ [d]) then
        let fs1 :=
          if pathExists st.1 (models_dir ++ [d]) then
            removeSubtree st.1 (models_dir ++ [d])
          else st.1
        (moveSubtree fs1 (temp_download_dir ++ [d]) (models_dir ++ [d]), true)
      else st) (fs, false)

/-- `download_models` (lines 362–434): make the target and HF cache
directories, fetch the base snapshot into the staging directory; on success
move the whole `models/` directory (deleting the store first) or the known
model directories one by one; fail if neither is present (the staging
directory is then left behind); on success clean the staging directory and
run `create_directory_structure`.  A raising fetch is caught and `False`
returned. -/
def download_models (env : Env) (ora : Oracle) (fs : FS) : FS × Bool :=
  let fs0 := mkdirp (mkdirp fs models_dir) hf_home
  let fs1 := mkdirp fs0 temp_download_dir
  match ora.baseFetch with
  | none => (fs1, false)
  | some tree =>
    let fs2 := applySnapshot fs1 temp_download_dir tree
    let src_models := temp_download_dir ++ ["models"]
    let step : FS × Bool :=
      if pathExists fs2 src_models then
        let fs3 :=
          if pathExists fs2 models_dir then removeSubtree fs2 models_dir else fs2
        (moveSubtree fs3 src_models models_dir, true)
      else moveModelDirs fs2
    if step.2 then
      let fs4 := removeSubtree step.1 temp_download_dir
      (create_directory_structure env fs4, true)
    else (step.1, false)

/-! ### create_config -/

/-- The byte length of the text `create_config` writes (a fixed template
instantiated with `true` or `false`). -/
def configSize (b : Bool) : Nat := if b then 262 else 263

/-- `create_config` (lines 437–462): re-read `is_formula_enabled` and write
the generated descriptor to `/root/magic-pdf.json`. -/
def create_config (fs : FS) : FS :=
  let b := is_formula_enabled fs
  setEntry fs config_path (Entry.file (configSize b) (FileContent.generatedConfig b))

/-! ### main -/

/-- `os.path.exists(MODELS_DIR) and os.listdir(MODELS_DIR)` (lines 492 and
502): the store root exists and is non-empty. -/
def storeNonEmpty (fs : FS) : Bool :=
  pathExists fs models_dir && ¬ childNames fs models_dir = []

/-- The UniMERNet phase of `main` (lines 526–540): when formula recognition
is enabled and the weights are flagged or found incomplete, download them;
on download success recreate the MFR aliases, on failure only warn. -/
def uniPhase (env : Env) (ora : Oracle) (formulaEnabled needUni : Bool) (fs : FS) : FS :=
  if formulaEnabled ∧ (needUni ∨ ¬ check_unimernet_complete fs) then
    let r := download_unimernet_models ora fs
    if r.2 then create_mfr_symlinks env r.1 else r.1
  else fs

/-- The tail of `main` after the base-model phase (lines 526–544): the
UniMERNet phase followed by `create_config`, exiting 0. -/
def finishRun (env : Env) (ora : Oracle) (formulaEnabled needUni : Bool) (fs : FS) :
    FS × Nat :=
  (create_config (uniPhase env ora formulaEnabled needUni fs), 0)

/-- `main` (lines 474–544), returning the final filesystem and the process
exit code.  `show_disk_usage` and all prints are omitted (read-only). -/
def main (env : Env) (ora : Oracle) (fs0 : FS) : FS × Nat :=
  let formulaEnabled := is_formula_enabled fs0
  -- lines 490–498: pre-check UniMERNet when formula is on and the store is
  -- non-empty (runs create_directory_structure first)
  let pre :=
    if formulaEnabled ∧ storeNonEmpty fs0 then
      let fs1 := create_directory_structure env fs0
      (fs1, ! check_unimernet_complete fs1)
    else (fs0, false)
  let fs := pre.1
  let needUni := pre.2
  -- lines 500–523: base-model phase
  if env.force ∨ ¬ check_models_exist fs then
    if ¬ env.force ∧ storeNonEmpty fs then
      let fs2 := create_directory_structure env fs
      if check_models_exist fs2 then finishRun env ora formulaEnabled needUni fs2
      else
        let d := download_models env ora fs2
        if d.2 then finishRun env ora formulaEnabled (if formulaEnabled then true else needUni) d.1
        else (d.1, 1)
    else
      let d := download_models env ora fs
      if d.2 then finishRun env ora formulaEnabled (if formulaEnabled then true else needUni) d.1
      else (d.1, 1)
  else finishRun env ora formulaEnabled needUni fs

/-! ## Concrete scenario states

Small concrete filesystems, environments and oracles used to instantiate
the claims (witnesses and counterexamples). -/

/-- Plain environment: no `--force`, symlinks supported. -/
def envPlain : Env := ⟨false, true⟩

/-- Environment on a filesystem without symlink support: `os.symlink`
raises. -/
def envNoSymlinkSupport : Env := ⟨false, false⟩

/-- Registry fully unavailable: every fetch raises. -/
def oraDown : Oracle := ⟨none, none⟩

/-- A store holding only `MFR/unimernet_small/pytorch_model.bin` of size
`s` bytes. -/
def unimernetStoreWithBin (s : Nat) : FS :=
  [(models_dir, Entry.dir), (mfr_dir, Entry.dir), (unimernet_small_dir, Entry.dir),
   (unimernet_small_dir ++ ["pytorch_model.bin"], Entry.file s (FileContent.raw 0))]

/-- Canonical store whose two required key files exist but are 0 bytes;
formula recognition disabled by the repo-local config. -/
def zeroByteStore : FS :=
  [(repo_config_path, Entry.file 40 (FileContent.jsonEnable false)),
   (models_dir, Entry.dir),
   (layout_dir, Entry.dir), (layoutlmv3_dir, Entry.dir),
   (layout_nested, Entry.file 0 (FileContent.raw 1)),
   (mfd_dir, Entry.dir), (mfd_yolo, Entry.dir),
   (yolo_model, Entry.file 0 (FileContent.raw 2))]

/-- A registry snapshot for the base repository: a `models/` directory in
canonical layout (no MFR weights, matching the kit's incomplete MFR). -/
def baseSnapshotTree : SnapshotTree :=
  [(["models"], Entry.dir),
   (["models", "Layout"], Entry.dir),
   (["models", "Layout", "LayoutLMv3"], Entry.dir),
   (["models", "Layout", "LayoutLMv3", "model_final.pth"], Entry.file 5 (FileContent.raw 3)),
   (["models", "MFD"], Entry.dir),
   (["models", "MFD", "YOLO"], Entry.dir),
   (["models", "MFD", "YOLO", "yolo_v8_ft.pt"], Entry.file 5 (FileContent.raw 4))]

/-- Base fetch succeeds with the canonical snapshot, UniMERNet fetch
raises. -/
def oraBaseOnly : Oracle := ⟨some baseSnapshotTree, none⟩

/-- Base fetch succeeds; the UniMERNet snapshot holds only
`pytorch_model.pth` (no `pytorch_model.bin`), large enough to pass the
size check. -/
def oraPthOnly : Oracle :=
  ⟨some baseSnapshotTree, some [(["pytorch_model.pth"], Entry.file 200000000 (FileContent.raw 11))]⟩

/-- Canonical base store plus an incomplete `MFR/unimernet_small` (a 50-byte
`pytorch_model.bin`); no config anywhere, so formula recognition defaults
to enabled. -/
def incompleteUniStore : FS :=
  [(models_dir, Entry.dir),
   (layout_dir, Entry.dir), (layoutlmv3_dir, Entry.dir),
   (layout_nested, Entry.file 5 (FileContent.raw 1)),
   (mfd_dir, Entry.dir), (mfd_yolo, Entry.dir),
   (yolo_model, Entry.file 5 (FileContent.raw 2)),
   (mfr_dir, Entry.dir), (unimernet_small_dir, Entry.dir),
   (unimernet_small_dir ++ ["pytorch_model.bin"], Entry.file 50 (FileContent.raw 7))]

/-- A store with a complete `unimernet_small` and no aliases yet. -/
def mfrOnlyStore : FS :=
  [(models_dir, Entry.dir), (mfr_dir, Entry.dir), (unimernet_small_dir, Entry.dir),
   (unimernet_small_dir ++ ["pytorch_model.bin"], Entry.file 200000000 (FileContent.raw 9))]

/-- `mfrOnlyStore` with the first alias path pre-populated as a real
directory carrying a marker file. -/
def aliasDirStore : FS :=
  [(models_dir, Entry.dir), (mfr_dir, Entry.dir),
   (mfr_dir ++ ["unimernet_hf_small_2503"], Entry.dir),
   (mfr_dir ++ ["unimernet_hf_small_2503", "marker.txt"], Entry.file 3 (FileContent.raw 5)),
   (unimernet_small_dir, Entry.dir),
   (unimernet_small_dir ++ ["pytorch_model.bin"], Entry.file 200000000 (FileContent.raw 9))]

/-- A non-empty store in flat layout (`Layout/model_final.pth`), missing
MFD entirely; formula recognition disabled by the repo-local config. -/
def flatLayoutStore : FS :=
  [(repo_config_path, Entry.file 40 (FileContent.jsonEnable false)),
   (models_dir, Entry.dir), (layout_dir, Entry.dir),
   (layout_flat, Entry.file 5 (FileContent.raw 1))]

/-! ## Basic lemmas about the filesystem operations -/

theorem removeEntry_cons (a : Path) (e : Entry) (tl : FS) (p : Path) :
    removeEntry ((a, e) :: tl) p =
      if a = p then removeEntry tl p else (a, e) :: removeEntry tl p := by
  by_cases h : a = p <;> simp [removeEntry, List.filter_cons, h]

theorem removeSubtree_cons (a : Path) (e : Entry) (tl : FS) (p : Path) :
    removeSubtree ((a, e) :: tl) p =
      if isUnder p a then removeSubtree tl p else (a, e) :: removeSubtree tl p := by
  by_cases h : isUnder p a <;> simp [removeSubtree, List.filter_cons, h]

theorem lookup_removeEntry (fs : FS) (p q : Path) :
    lookup (removeEntry fs p) q = if q = p then none else lookup fs q := by
  induction fs with
  | nil => simp [removeEntry, lookup]
  | cons hd tl ih =>
    obtain ⟨a, e⟩ := hd
    rw [removeEntry_cons]
    by_cases ha : a = p
    · rw [if_pos ha, ih]
      by_cases hq : q = p
      · simp [hq]
      · have haq : ¬ a = q := fun h => hq (by rw [← h, ha])
        simp [lookup, hq, haq]
    · rw [if_neg ha]
      by_cases haq : a = q
      · have hqp : ¬ q = p := by rw [← haq]; exact ha
        simp [lookup, haq, hqp]
      · simp [lookup, haq, ih]

theorem lookup_setEntry (fs : FS) (p : Path) (e : Entry) (q : Path) :
    lookup (setEntry fs p e) q = if q = p then some e else lookup fs q := by
  by_cases h : q = p
  · simp [setEntry, lookup, h]
  · have h' : ¬ p = q := fun hc => h hc.symm
    simp [setEntry, lookup, h, h', lookup_removeEntry]

theorem lookup_removeSubtree (fs : FS) (p q : Path) :
    lookup (removeSubtree fs p) q =
      if isUnder p q then none else lookup fs q := by
  induction fs with
  | nil => simp [removeSubtree, lookup]
  | cons hd tl ih =>
    obtain ⟨a, e⟩ := hd
    rw [removeSubtree_cons]
    by_cases ha : isUnder p a
    · rw [if_pos ha, ih]
      by_cases hq : isUnder p q
      · simp [hq]
      · have haq : ¬ a = q := fun h => hq (h ▸ ha)
        simp [lookup, hq, haq]
    · rw [if_neg ha]
      by_cases haq : a = q
      · have hq : ¬ isUnder p q = true := fun h => ha (haq ▸ h)
        simp [lookup, haq, hq]
      · simp [lookup, haq, ih]

/-! ### isUnder lemmas -/

theorem isUnder_append (p r : Path) : isUnder p (p ++ r) = true := by
  induction p with
  | nil => simp [isUnder]
  | cons a as ih => simp [isUnder, ih]

theorem isUnder_refl (p : Path) : isUnder p p = true := by
  simpa using isUnder_append p []

theorem append_drop_of_isUnder : ∀ pre p : Path, isUnder pre p = true →
    pre ++ p.drop pre.length = p
  | [], p, _ => by simp
  | a :: as, [], h => by simp [isUnder] at h
  | a :: as, b :: bs, h => by
    simp only [isUnder, Bool.and_eq_true, decide_eq_true_eq] at h
    simp [h.1, append_drop_of_isUnder as bs h.2]

theorem isUnder_trans : ∀ a b c : Path,
    isUnder a b = true → isUnder b c = true → isUnder a c = true
  | [], _, _, _, _ => by simp [isUnder]
  | _ :: _, [], _, h, _ => by simp [isUnder] at h
  | _ :: _, _ :: _, [], _, h => by simp [isUnder] at h
  | x :: xs, y :: ys, z :: zs, h1, h2 => by
    simp only [isUnder, Bool.and_eq_true, decide_eq_true_eq] at h1 h2 ⊢
    exact ⟨h1.1.trans h2.1, isUnder_trans xs ys zs h1.2 h2.2⟩

theorem not_isUnder_of_isUnder_not (pre p q : Path)
    (h1 : isUnder pre p = true) (h2 : ¬ isUnder pre q = true) : ¬ p = q :=
  fun hc => h2 (hc ▸ h1)

/-! ### moveSubtree lemmas -/

theorem mem_removeSubtree (fs : FS) (p : Path) (x : Path × Entry)
    (h : x ∈ removeSubtree fs p) : ¬ isUnder p x.1 = true := by
  have := List.mem_filter.mp h
  simpa using this.2

theorem lookup_map_move_outside (g : FS) (src dst q : Path)
    (hs : ¬ isUnder src q = true) (hd : ¬ isUnder dst q = true) :
    lookup (g.map (fun e =>
      if isUnder src e.1 then (dst ++ e.1.drop src.length, e.2) else e)) q =
      lookup g q := by
  induction g with
  | nil => rfl
  | cons hd' tl ih =>
    obtain ⟨a, e⟩ := hd'
    simp only [List.map_cons]
    by_cases ha : isUnder src a = true
    · rw [if_pos ha]
      have h1 : ¬ (dst ++ a.drop src.length) = q :=
        not_isUnder_of_isUnder_not dst _ q (isUnder_append _ _) hd
      have h2 : ¬ a = q := not_isUnder_of_isUnder_not src a q ha hs
      rw [lookup, lookup, if_neg h1, if_neg h2, ih]
    · rw [if_neg ha]
      rw [lookup, lookup, ih]

theorem lookup_map_move_dst (g : FS) (src dst r : Path)
    (hg : ∀ x ∈ g, ¬ isUnder dst x.1 = true) :
    lookup (g.map (fun e =>
      if isUnder src e.1 then (dst ++ e.1.drop src.length, e.2) else e)) (dst ++ r) =
      lookup g (src ++ r) := by
  induction g with
  | nil => rfl
  | cons hd' tl ih =>
    obtain ⟨a, e⟩ := hd'
    have ihtl := ih (fun x hx => hg x (List.mem_cons_of_mem _ hx))
    simp only [List.map_cons]
    by_cases ha : isUnder src a = true
    · rw [if_pos ha]
      have hsplit : src ++ a.drop src.length = a := append_drop_of_isUnder src a ha
      by_cases har : a = src ++ r
      · have hdrop : dst ++ a.drop src.length = dst ++ r := by
          have h2 : src ++ a.drop src.length = src ++ r := by rw [hsplit]; exact har
          rw [List.append_cancel_left h2]
        rw [lookup, lookup, if_pos hdrop, if_pos har]
      · have h1 : ¬ (dst ++ a.drop src.length) = dst ++ r := by
          intro hc
          exact har (by rw [← hsplit, List.append_cancel_left hc])
        have h2 : ¬ a = src ++ r := har
        rw [lookup, lookup, if_neg h1, if_neg h2, ihtl]
    · rw [if_neg ha]
      have h1 : ¬ a = dst ++ r := by
        intro hc
        exact hg (a, e) (List.mem_cons_self _ _) (hc ▸ isUnder_append dst r)
      have h2 : ¬ a = src ++ r := by
        intro hc
        exact ha (hc ▸ isUnder_append src r)
      rw [lookup, lookup, if_neg h1, if_neg h2, ihtl]

theorem lookup_moveSubtree_outside (fs : FS) (src dst q : Path)
    (hs : ¬ isUnder src q = true) (hd : ¬ isUnder dst q = true) :
    lookup (moveSubtree fs src dst) q = lookup fs q := by
  unfold moveSubtree
  rw [lookup_map_move_outside _ _ _ _ hs hd, lookup_removeSubtree, if_neg hd]

theorem lookup_moveSubtree_dst (fs : FS) (src dst r : Path)
    (hno : ¬ isUnder dst (src ++ r) = true) :
    lookup (moveSubtree fs src dst) (dst ++ r) = lookup fs (src ++ r) := by
  unfold moveSubtree
  rw [lookup_map_move_dst _ _ _ _ (mem_removeSubtree fs dst), lookup_removeSubtree,
    if_neg hno]

/-! ### mkdirp lemmas -/

theorem lookup_mkdirpFold_not_mem (l : List Path) (fs : FS) (q : Path) (h : q ∉ l) :
    lookup (l.foldl
      (fun acc p => if (lookup acc p).isSome then acc else (p, Entry.dir) :: acc) fs) q =
      lookup fs q := by
  induction l generalizing fs with
  | nil => rfl
  | cons a as ih =>
    have haq : ¬ a = q := fun hc => h (hc ▸ List.mem_cons_self a as)
    have has : q ∉ as := fun hc => h (List.mem_cons_of_mem a hc)
    simp only [List.foldl_cons]
    rw [ih _ has]
    by_cases hs : (lookup fs a).isSome
    · rw [if_pos hs]
    · rw [if_neg hs]
      simp [lookup, haq]

theorem lookup_mkdirpFold_some (l : List Path) (fs : FS) (q : Path) (e : Entry)
    (h : lookup fs q = some e) :
    lookup (l.foldl
      (fun acc p => if (lookup acc p).isSome then acc else (p, Entry.dir) :: acc) fs) q =
      some e := by
  induction l generalizing fs with
  | nil => exact h
  | cons a as ih =>
    simp only [List.foldl_cons]
    by_cases hs : (lookup fs a).isSome
    · rw [if_pos hs]; exact ih fs h
    · rw [if_neg hs]
      apply ih
      have haq : ¬ a = q := by
        intro hc
        rw [hc, h] at hs
        exact hs rfl
      simp [lookup, haq, h]

theorem lookup_mkdirp_not_mem (fs : FS) (p q : Path) (h : q ∉ ancestors p) :
    lookup (mkdirp fs p) q = lookup fs q :=
  lookup_mkdirpFold_not_mem (ancestors p) fs q h

theorem lookup_mkdirp_some (fs : FS) (p q : Path) (e : Entry)
    (h : lookup fs q = some e) : lookup (mkdirp fs p) q = some e :=
  lookup_mkdirpFold_some (ancestors p) fs q e h

/-! ### realpath and pathExists lemmas -/

theorem realpath_of_not_symlink (fs : FS) (p : Path)
    (h : ∀ t, ¬ lookup fs p = some (Entry.symlink t)) : realpath fs p = p := by
  unfold realpath realpathFuel
  cases he : lookup fs p with
  | none => rfl
  | some e =>
    cases e with
    | file s c => rfl
    | dir => rfl
    | symlink t => exact absurd he (h t)

theorem realpath_of_none (fs : FS) (p : Path) (h : lookup fs p = none) :
    realpath fs p = p :=
  realpath_of_not_symlink fs p (fun t hc => by rw [h] at hc; exact Option.noConfusion hc)

theorem pathExists_of_none (fs : FS) (p : Path) (h : lookup fs p = none) :
    pathExists fs p = false := by
  unfold pathExists
  rw [realpath_of_none fs p h, h]
  rfl

theorem pathExists_of_file (fs : FS) (p : Path) (s : Nat) (c : FileContent)
    (h : lookup fs p = some (Entry.file s c)) : pathExists fs p = true := by
  unfold pathExists
  rw [realpath_of_not_symlink fs p (fun t hc => by rw [h] at hc; exact Entry.noConfusion (Option.some.inj hc)), h]
  rfl

theorem pathExists_of_dir (fs : FS) (p : Path) (h : lookup fs p = some Entry.dir) :
    pathExists fs p = true := by
  unfold pathExists
  rw [realpath_of_not_symlink fs p (fun t hc => by rw [h] at hc; exact Entry.noConfusion (Option.some.inj hc)), h]
  rfl

/-! ### Alias-pass preservation lemmas -/

theorem isUnder_singleton_decomp (x : Path) (a : String) (q : Path)
    (h : isUnder (x ++ [a]) q = true) : ∃ r, q = x ++ a :: r := by
  refine ⟨q.drop (x ++ [a]).length, ?_⟩
  have := append_drop_of_isUnder (x ++ [a]) q h
  simpa using this.symm

theorem create_symlink_safe_preserves (env : Env) (fs : FS) (t l q : Path)
    (hq : ¬ q = l) :
    lookup (create_symlink_safe env fs t l).1 q = lookup fs q := by
  unfold create_symlink_safe
  by_cases hl : islink fs l = true
  · rw [if_pos hl]
    by_cases hs : env.symlinkOk = true
    · rw [if_pos hs]
      dsimp only
      rw [lookup_setEntry, if_neg hq, lookup_removeEntry, if_neg hq]
    · rw [if_neg hs]
      dsimp only
      rw [lookup_removeEntry, if_neg hq]
  · rw [if_neg hl]
    by_cases he : pathExists fs l = true
    · rw [if_pos he]
    · rw [if_neg he]
      by_cases hs : env.symlinkOk = true
      · rw [if_pos hs]
        dsimp only
        rw [lookup_setEntry, if_neg hq]
      · rw [if_neg hs]

theorem mfrAliasStep_preserves_other (env : Env) (fs : FS) (b a : String)
    (hab : ¬ b = a) (q : Path) (hq : isUnder (mfr_dir ++ [a]) q = true) :
    lookup (mfrAliasStep env fs b) q = lookup fs q := by
  unfold mfrAliasStep
  have hql : ¬ q = mfr_dir ++ [b] := by
    intro hc
    obtain ⟨r, hr⟩ := isUnder_singleton_decomp mfr_dir a q hq
    rw [hr] at hc
    have h5 : a :: r = [b] := List.append_cancel_left hc
    have h6 : a = b := List.head_eq_of_cons_eq h5
    exact hab h6.symm
  by_cases h1 : pathExists fs (mfr_dir ++ [b]) = true ∧
      isdir fs (mfr_dir ++ [b]) = true ∧ ¬ islink fs (mfr_dir ++ [b]) = true
  · simp [h1]
  · rw [if_neg h1]
    by_cases h2 : pathExists fs unimernet_small_dir = true
    · rw [if_neg (not_not_intro h2)]
      exact create_symlink_safe_preserves env fs _ _ q hql
    · rw [if_pos h2]

theorem mfrAliasStep_skips_real_dir (env : Env) (fs : FS) (a : String)
    (ha : lookup fs (mfr_dir ++ [a]) = some Entry.dir) :
    mfrAliasStep env fs a = fs := by
  unfold mfrAliasStep
  have hrp : realpath fs (mfr_dir ++ [a]) = mfr_dir ++ [a] :=
    realpath_of_not_symlink fs _ (fun t hc => by
      rw [ha] at hc; exact Entry.noConfusion (Option.some.inj hc))
  have h1 : pathExists fs (mfr_dir ++ [a]) = true := pathExists_of_dir fs _ ha
  have h2 : isdir fs (mfr_dir ++ [a]) = true := by
    unfold isdir; rw [hrp, ha]
  have h3 : islink fs (mfr_dir ++ [a]) = false := by
    unfold islink; rw [ha]
  simp [h1, h2, h3]

theorem foldl_mfrAliasStep_preserves (env : Env) (l : List String) (fs : FS)
    (a : String) (ha : lookup fs (mfr_dir ++ [a]) = some Entry.dir)
    (q : Path) (hq : isUnder (mfr_dir ++ [a]) q = true) :
    lookup (l.foldl (mfrAliasStep env) fs) q = lookup fs q := by
  induction l generalizing fs with
  | nil => rfl
  | cons b bs ih =>
    simp only [List.foldl_cons]
    by_cases hab : b = a
    · rw [hab, mfrAliasStep_skips_real_dir env fs a ha]
      exact ih fs ha
    · have hstep : ∀ q', isUnder (mfr_dir ++ [a]) q' = true →
          lookup (mfrAliasStep env fs b) q' = lookup fs q' :=
        fun q' hq' => mfrAliasStep_preserves_other env fs b a hab q' hq'
      have ha' : lookup (mfrAliasStep env fs b) (mfr_dir ++ [a]) = some Entry.dir := by
        rw [hstep _ (isUnder_refl _)]; exact ha
      rw [ih (mfrAliasStep env fs b) ha', hstep q hq]

/-! ### Generic fold-preservation lemmas -/

theorem lookup_foldl_preserve {α : Type} (l : List α) (f : FS → α → FS) (fs : FS)
    (q : Path) (h : ∀ acc a, a ∈ l → lookup (f acc a) q = lookup acc q) :
    lookup (l.foldl f fs) q = lookup fs q := by
  induction l generalizing fs with
  | nil => rfl
  | cons a as ih =>
    rw [List.foldl_cons,
      ih (f fs a) (fun acc b hb => h acc b (List.mem_cons_of_mem a hb)),
      h fs a (List.mem_cons_self a as)]

theorem lookup_foldl_preserve_fst {α β : Type} (l : List α) (f : FS × β → α → FS × β)
    (st : FS × β) (q : Path)
    (h : ∀ st' a, a ∈ l → lookup (f st' a).1 q = lookup st'.1 q) :
    lookup (l.foldl f st).1 q = lookup st.1 q := by
  induction l generalizing st with
  | nil => rfl
  | cons a as ih =>
    rw [List.foldl_cons,
      ih (f st a) (fun st' b hb => h st' b (List.mem_cons_of_mem a hb)),
      h st a (List.mem_cons_self a as)]

theorem lookup_foldl_some {α : Type} (l : List α) (f : FS → α → FS) (fs : FS)
    (q : Path) (e : Entry)
    (h : ∀ acc a, a ∈ l → lookup acc q = some e → lookup (f acc a) q = some e)
    (h0 : lookup fs q = some e) :
    lookup (l.foldl f fs) q = some e := by
  induction l generalizing fs with
  | nil => exact h0
  | cons a as ih =>
    rw [List.foldl_cons]
    exact ih (f fs a) (fun acc b hb => h acc b (List.mem_cons_of_mem a hb))
      (h fs a (List.mem_cons_self a as) h0)

/-! ### Cache-prefix helpers

All state the provisioning script mutates before `create_config` lives
under `/root/.cache`; these lemmas let a single hypothesis
(`isUnder ["root", ".cache"] q = false` together with `q ≠ ["root"]`)
transport lookups through every phase. -/

theorem not_isUnder_extend (pre ext q : Path) (h : isUnder pre q = false) :
    isUnder (pre ++ ext) q = false := by
  cases hc : isUnder (pre ++ ext) q with
  | true =>
    have := isUnder_trans pre (pre ++ ext) q (isUnder_append pre ext) hc
    rw [h] at this
    exact Bool.noConfusion this
  | false => rfl

theorem cache_ne (q p : Path) (hq : isUnder ["root", ".cache"] q = false)
    (hp : isUnder ["root", ".cache"] p = true) : ¬ q = p := by
  intro hc
  rw [hc, hp] at hq
  exact Bool.noConfusion hq

theorem cache_not_under (q p : Path) (hq : isUnder ["root", ".cache"] q = false)
    (hp : isUnder ["root", ".cache"] p = true) : isUnder p q = false := by
  cases hc : isUnder p q with
  | true =>
    have := isUnder_trans ["root", ".cache"] p q hp hc
    rw [hq] at this
    exact Bool.noConfusion this
  | false => rfl

theorem cache_not_mem_ancestors (q p : Path)
    (hq1 : isUnder ["root", ".cache"] q = false) (hq2 : ¬ q = ["root"])
    (hp : isUnder ["root", ".cache"] p = true) : q ∉ ancestors p := by
  intro hmem
  obtain ⟨i, hi, hq⟩ := List.mem_map.mp hmem
  have hdecomp : ["root", ".cache"] ++ p.drop 2 = p :=
    append_drop_of_isUnder ["root", ".cache"] p hp
  match i with
  | 0 =>
    rw [← hdecomp] at hq
    simp only [List.cons_append, List.take_cons, List.take_zero] at hq
    exact hq2 (by simpa using hq.symm)
  | Nat.succ j =>
    rw [← hdecomp] at hq
    have hqval : q = ["root", ".cache"] ++ (p.drop 2).take j := by
      simpa [List.take_cons, List.cons_append] using hq.symm
    rw [hqval, isUnder_append] at hq1
    exact Bool.noConfusion hq1

/-! ### Membership and child-name lemmas -/

theorem lookup_mem (fs : FS) (q : Path) (e : Entry) (h : lookup fs q = some e) :
    (q, e) ∈ fs := by
  induction fs with
  | nil => exact Option.noConfusion h
  | cons hd tl ih =>
    obtain ⟨a, e'⟩ := hd
    rw [lookup] at h
    by_cases haq : a = q
    · rw [if_pos haq] at h
      rw [haq, Option.some.inj h]
      exact List.mem_cons_self _ _
    · rw [if_neg haq] at h
      exact List.mem_cons_of_mem _ (ih h)

theorem childNames_ne_nil_of_child (fs : FS) (p q : Path) (e : Entry)
    (hq : lookup fs q = some e) (hu : isUnder p q = true)
    (hl : p.length < q.length) : ¬ childNames fs p = [] := by
  have hmem : (q, e) ∈ fs := lookup_mem fs q e hq
  have hdrop : (q.drop p.length).length = q.length - p.length := by
    simp
  have hne : q.drop p.length ≠ [] := by
    intro hc
    rw [hc] at hdrop
    simp at hdrop
    omega
  obtain ⟨x, xs, hx⟩ := List.exists_cons_of_ne_nil hne
  have hxmem : x ∈ fs.filterMap (fun e =>
      if isUnder p e.1 ∧ p.length < e.1.length then (e.1.drop p.length).head? else none) := by
    apply List.mem_filterMap.mpr
    exact ⟨(q, e), hmem, by rw [if_pos ⟨hu, hl⟩, hx]; rfl⟩
  intro hc
  unfold childNames at hc
  rw [List.dedup_eq_nil] at hc
  rw [hc] at hxmem
  exact List.not_mem_nil x hxmem

/-! ### No-op and reduction lemmas for the repair phases -/

theorem fixLayout_noop_of_nested (fs : FS) (h : pathExists fs layout_nested = true) :
    fixLayout fs = fs := by
  unfold fixLayout
  rw [if_neg (fun hc => hc.2 h)]

theorem fixMfdWeights_noop_of_yolo (fs : FS) (h : pathExists fs yolo_model = true) :
    fixMfdWeights fs = fs := by
  unfold fixMfdWeights
  rw [if_neg (fun hc => hc.2 h)]

theorem readEnable_of_none (fs : FS) (p : Path) (h : lookup fs p = none) :
    readEnable fs p = none := by
  unfold readEnable
  rw [if_neg (by rw [pathExists_of_none fs p h]; exact Bool.noConfusion)]

theorem is_formula_enabled_of_none (fs : FS)
    (h1 : lookup fs repo_config_path = none) (h2 : lookup fs config_path = none) :
    is_formula_enabled fs = true := by
  unfold is_formula_enabled
  rw [readEnable_of_none fs _ h1, readEnable_of_none fs _ h2]

theorem not_true_of_false {b : Bool} (h : b = false) : ¬ b = true := by
  rw [h]
  exact fun hc => Bool.noConfusion hc

/-! ### Off-cache preservation, per primitive -/

theorem lookup_setEntry_cache (fs : FS) (p : Path) (e : Entry) (q : Path)
    (hq1 : isUnder ["root", ".cache"] q = false)
    (hp : isUnder ["root", ".cache"] p = true) :
    lookup (setEntry fs p e) q = lookup fs q := by
  rw [lookup_setEntry, if_neg (cache_ne q p hq1 hp)]

theorem lookup_removeEntry_cache (fs : FS) (p q : Path)
    (hq1 : isUnder ["root", ".cache"] q = false)
    (hp : isUnder ["root", ".cache"] p = true) :
    lookup (removeEntry fs p) q = lookup fs q := by
  rw [lookup_removeEntry, if_neg (cache_ne q p hq1 hp)]

theorem lookup_removeSubtree_cache (fs : FS) (p q : Path)
    (hq1 : isUnder ["root", ".cache"] q = false)
    (hp : isUnder ["root", ".cache"] p = true) :
    lookup (removeSubtree fs p) q = lookup fs q := by
  rw [lookup_removeSubtree, if_neg (not_true_of_false (cache_not_under q p hq1 hp))]

theorem lookup_moveSubtree_cache (fs : FS) (src dst q : Path)
    (hq1 : isUnder ["root", ".cache"] q = false)
    (hs : isUnder ["root", ".cache"] src = true)
    (hd : isUnder ["root", ".cache"] dst = true) :
    lookup (moveSubtree fs src dst) q = lookup fs q :=
  lookup_moveSubtree_outside fs src dst q
    (not_true_of_false (cache_not_under q src hq1 hs))
    (not_true_of_false (cache_not_under q dst hq1 hd))

theorem lookup_mkdirp_cache (fs : FS) (p q : Path)
    (hq1 : isUnder ["root", ".cache"] q = false) (hq2 : ¬ q = ["root"])
    (hp : isUnder ["root", ".cache"] p = true) :
    lookup (mkdirp fs p) q = lookup fs q :=
  lookup_mkdirp_not_mem fs p q (cache_not_mem_ancestors q p hq1 hq2 hp)

theorem lookup_applySnapshot_cache (fs : FS) (dest : Path) (tree : SnapshotTree)
    (q : Path) (hq1 : isUnder ["root", ".cache"] q = false) (hq2 : ¬ q = ["root"])
    (hd : isUnder ["root", ".cache"] dest = true) :
    lookup (applySnapshot fs dest tree) q = lookup fs q := by
  unfold applySnapshot
  rw [lookup_foldl_preserve _ _ _ _ (fun acc a _ =>
    lookup_setEntry_cache acc (dest ++ a.1) a.2 q hq1
      (isUnder_trans _ dest _ hd (isUnder_append dest a.1)))]
  exact lookup_mkdirp_cache fs dest q hq1 hq2 hd

/-! ### Off-cache preservation, per phase -/

theorem lookup_fixLayout_cache (fs : FS) (q : Path)
    (hq1 : isUnder ["root", ".cache"] q = false) (hq2 : ¬ q = ["root"]) :
    lookup (fixLayout fs) q = lookup fs q := by
  unfold fixLayout
  by_cases hc : pathExists fs layout_flat = true ∧ ¬ pathExists fs layout_nested = true
  · rw [if_pos hc]
    rw [lookup_foldl_preserve _ _ _ _ (fun acc a _ => ?step)]
    · exact lookup_mkdirp_cache fs layoutlmv3_dir q hq1 hq2 (by decide)
    case step =>
      by_cases ha : a ≠ "LayoutLMv3"
      · rw [if_pos ha]
        exact lookup_moveSubtree_cache acc _ _ q hq1
          (isUnder_trans _ layout_dir _ (by decide) (isUnder_append layout_dir [a]))
          (isUnder_trans _ layoutlmv3_dir _ (by decide) (isUnder_append layoutlmv3_dir [a]))
      · rw [if_neg ha]
  · rw [if_neg hc]

theorem lookup_fixMfdWeights_cache (fs : FS) (q : Path)
    (hq1 : isUnder ["root", ".cache"] q = false) (hq2 : ¬ q = ["root"]) :
    lookup (fixMfdWeights fs) q = lookup fs q := by
  unfold fixMfdWeights
  by_cases hc : pathExists fs mfd_flat = true ∧ ¬ pathExists fs yolo_model = true
  · rw [if_pos hc, lookup_moveSubtree_cache _ _ _ q hq1 (by decide) (by decide)]
    exact lookup_mkdirp_cache fs mfd_yolo q hq1 hq2 (by decide)
  · rw [if_neg hc]

theorem lookup_fixMfdStray_cache (fs : FS) (q : Path)
    (hq1 : isUnder ["root", ".cache"] q = false) (hq2 : ¬ q = ["root"]) :
    lookup (fixMfdStray fs) q = lookup fs q := by
  unfold fixMfdStray
  by_cases hc : pathExists fs mfd_dir = true
  · rw [if_pos hc]
    rw [lookup_foldl_preserve _ _ _ _ (fun acc a _ => ?step)]
    case step =>
      by_cases h1 : a ≠ "YOLO" ∧ ¬ isdir acc (mfd_dir ++ [a]) = true
      · rw [if_pos h1]
        by_cases h2 : ¬ pathExists acc (mfd_yolo ++ [a]) = true
        · rw [if_pos h2]
          rw [lookup_moveSubtree_cache _ _ _ q hq1
            (isUnder_trans _ mfd_dir _ (by decide) (isUnder_append mfd_dir [a]))
            (isUnder_trans _ mfd_yolo _ (by decide) (isUnder_append mfd_yolo [a]))]
          exact lookup_mkdirp_cache acc mfd_yolo q hq1 hq2 (by decide)
        · rw [if_neg h2]
      · rw [if_neg h1]
  · rw [if_neg hc]

theorem mfrAliasStep_preserves_ne (env : Env) (fs : FS) (b : String) (q : Path)
    (hql : ¬ q = mfr_dir ++ [b]) :
    lookup (mfrAliasStep env fs b) q = lookup fs q := by
  unfold mfrAliasStep
  by_cases h1 : pathExists fs (mfr_dir ++ [b]) = true ∧
      isdir fs (mfr_dir ++ [b]) = true ∧ ¬ islink fs (mfr_dir ++ [b]) = true
  · simp [h1]
  · rw [if_neg h1]
    by_cases h2 : pathExists fs unimernet_small_dir = true
    · rw [if_neg (not_not_intro h2)]
      exact create_symlink_safe_preserves env fs _ _ q hql
    · rw [if_pos h2]

theorem lookup_create_mfr_symlinks_ne (env : Env) (fs : FS) (q : Path)
    (hq : ∀ b ∈ symlink_map, ¬ q = mfr_dir ++ [b]) :
    lookup (create_mfr_symlinks env fs) q = lookup fs q := by
  unfold create_mfr_symlinks
  by_cases h1 : pathExists fs mfr_dir = true
  · rw [if_neg (not_not_intro h1)]
    by_cases h2 : pathExists fs unimernet_small_dir = true ∧
        isdir fs unimernet_small_dir = true
    · rw [if_pos h2]
      exact lookup_foldl_preserve _ _ _ _
        (fun acc b hb => mfrAliasStep_preserves_ne env acc b q (hq b hb))
    · rw [if_neg h2]
  · rw [if_pos h1]

theorem lookup_create_mfr_symlinks_cache (env : Env) (fs : FS) (q : Path)
    (hq1 : isUnder ["root", ".cache"] q = false) :
    lookup (create_mfr_symlinks env fs) q = lookup fs q :=
  lookup_create_mfr_symlinks_ne env fs q (fun b _ =>
    cache_ne q (mfr_dir ++ [b]) hq1
      (isUnder_trans _ mfr_dir _ (by decide) (isUnder_append mfr_dir [b])))

theorem lookup_create_mfr_symlinks_not_under_mfr (env : Env) (fs : FS) (q : Path)
    (hq : isUnder mfr_dir q = false) :
    lookup (create_mfr_symlinks env fs) q = lookup fs q :=
  lookup_create_mfr_symlinks_ne env fs q (fun b _ hc => by
    rw [hc, isUnder_append mfr_dir [b]] at hq
    exact Bool.noConfusion hq)

theorem lookup_create_directory_structure_cache (env : Env) (fs : FS) (q : Path)
    (hq1 : isUnder ["root", ".cache"] q = false) (hq2 : ¬ q = ["root"]) :
    lookup (create_directory_structure env fs) q = lookup fs q := by
  unfold create_directory_structure
  have hfix : lookup (fixMfdStray (fixMfdWeights (fixLayout fs))) q = lookup fs q := by
    rw [lookup_fixMfdStray_cache _ q hq1 hq2, lookup_fixMfdWeights_cache _ q hq1 hq2,
      lookup_fixLayout_cache _ q hq1 hq2]
  by_cases hfe : is_formula_enabled (fixMfdStray (fixMfdWeights (fixLayout fs))) = true
  · rw [if_pos hfe, lookup_create_mfr_symlinks_cache env _ q hq1, hfix]
  · rw [if_neg hfe, hfix]

theorem lookup_download_unimernet_cache (ora : Oracle) (fs : FS) (q : Path)
    (hq1 : isUnder ["root", ".cache"] q = false) (hq2 : ¬ q = ["root"]) :
    lookup (download_unimernet_models ora fs).1 q = lookup fs q := by
  unfold download_unimernet_models
  have hstep : ∀ fs' : FS, lookup fs' q = lookup fs q →
      lookup (if pathExists fs' unimernet_small_dir = true then
        (if islink fs' unimernet_small_dir = true then removeEntry fs' unimernet_small_dir
         else removeSubtree fs' unimernet_small_dir)
      else fs') q = lookup fs q := by
    intro fs' hfs'
    by_cases h1 : pathExists fs' unimernet_small_dir = true
    · rw [if_pos h1]
      by_cases h2 : islink fs' unimernet_small_dir = true
      · rw [if_pos h2, lookup_removeEntry_cache _ _ q hq1 (by decide), hfs']
      · rw [if_neg h2, lookup_removeSubtree_cache _ _ q hq1 (by decide), hfs']
    · rw [if_neg h1, hfs']
  have hpre : lookup (mkdirp fs mfr_dir) q = lookup fs q :=
    lookup_mkdirp_cache fs mfr_dir q hq1 hq2 (by decide)
  cases hm : ora.unimernetFetch with
  | none =>
    dsimp only
    exact hstep (mkdirp fs mfr_dir) hpre
  | some tree =>
    dsimp only
    rw [apply_ite Prod.fst, ite_self]
    dsimp only
    rw [lookup_applySnapshot_cache _ unimernet_small_dir tree q hq1 hq2 (by decide)]
    exact hstep (mkdirp fs mfr_dir) hpre

theorem lookup_moveModelDirs_cache (fs : FS) (q : Path)
    (hq1 : isUnder ["root", ".cache"] q = false) :
    lookup (moveModelDirs fs).1 q = lookup fs q := by
  unfold moveModelDirs
  exact lookup_foldl_preserve_fst _ _ _ _ (fun st a _ => by
    by_cases h1 : pathExists st.1 (temp_download_dir ++ [a]) = true
    · rw [if_pos h1]
      dsimp only
      rw [lookup_moveSubtree_cache _ _ _ q hq1
        (isUnder_trans _ temp_download_dir _ (by decide) (isUnder_append temp_download_dir [a]))
        (isUnder_trans _ models_dir _ (by decide) (isUnder_append models_dir [a]))]
      by_cases h2 : pathExists st.1 (models_dir ++ [a]) = true
      · rw [if_pos h2, lookup_removeSubtree_cache _ _ q hq1
          (isUnder_trans _ models_dir _ (by decide) (isUnder_append models_dir [a]))]
      · rw [if_neg h2]
    · rw [if_neg h1])

/-- Reduction of `download_models` when the base fetch raises: only the
three `makedirs` happened. -/
theorem download_models_fetch_none (env : Env) (ora : Oracle) (fs : FS)
    (h : ora.baseFetch = none) :
    download_models env ora fs =
      (mkdirp (mkdirp (mkdirp fs models_dir) hf_home) temp_download_dir, false) := by
  unfold download_models
  rw [h]

theorem download_models_fetch_some (env : Env) (ora : Oracle) (fs : FS)
    (tree : SnapshotTree) (h : ora.baseFetch = some tree) :
    download_models env ora fs =
      (let fs2 := applySnapshot
          (mkdirp (mkdirp (mkdirp fs models_dir) hf_home) temp_download_dir)
          temp_download_dir tree
       let step : FS × Bool :=
         if pathExists fs2 (temp_download_dir ++ ["models"]) then
           (moveSubtree
             (if pathExists fs2 models_dir then removeSubtree fs2 models_dir else fs2)
             (temp_download_dir ++ ["models"]) models_dir, true)
         else moveModelDirs fs2
       if step.2 then
         (create_directory_structure env (removeSubtree step.1 temp_download_dir), true)
       else (step.1, false)) := by
  unfold download_models
  rw [h]

theorem lookup_download_models_cache (env : Env) (ora : Oracle) (fs : FS) (q : Path)
    (hq1 : isUnder ["root", ".cache"] q = false) (hq2 : ¬ q = ["root"]) :
    lookup (download_models env ora fs).1 q = lookup fs q := by
  have hmk : lookup (mkdirp (mkdirp (mkdirp fs models_dir) hf_home) temp_download_dir) q =
      lookup fs q := by
    rw [lookup_mkdirp_cache _ temp_download_dir q hq1 hq2 (by decide),
      lookup_mkdirp_cache _ hf_home q hq1 hq2 (by decide),
      lookup_mkdirp_cache _ models_dir q hq1 hq2 (by decide)]
  cases hm : ora.baseFetch with
  | none =>
    rw [download_models_fetch_none env ora fs hm]
    dsimp only
    exact hmk
  | some tree =>
    rw [download_models_fetch_some env ora fs tree hm]
    dsimp only
    set fs2 := applySnapshot (mkdirp (mkdirp (mkdirp fs models_dir) hf_home)
      temp_download_dir) temp_download_dir tree with hfs2
    have hfs2q : lookup fs2 q = lookup fs q := by
      rw [hfs2, lookup_applySnapshot_cache _ temp_download_dir tree q hq1 hq2 (by decide)]
      exact hmk
    have hstepq : ∀ st : FS × Bool, lookup st.1 q = lookup fs q →
        lookup (if st.2 = true then
          (create_directory_structure env (removeSubtree st.1 temp_download_dir), true)
        else (st.1, false)).1 q = lookup fs q := by
      intro st hst
      by_cases h2 : st.2 = true
      · rw [if_pos h2]
        dsimp only
        rw [lookup_create_directory_structure_cache env _ q hq1 hq2,
          lookup_removeSubtree_cache _ _ q hq1 (by decide), hst]
      · rw [if_neg h2]
        exact hst
    by_cases h1 : pathExists fs2 (temp_download_dir ++ ["models"]) = true
    · rw [if_pos h1]
      refine hstepq _ ?_
      dsimp only
      rw [lookup_moveSubtree_cache _ _ _ q hq1 (by decide) (by decide)]
      by_cases h3 : pathExists fs2 models_dir = true
      · rw [if_pos h3, lookup_removeSubtree_cache _ _ q hq1 (by decide), hfs2q]
      · rw [if_neg h3, hfs2q]
    · rw [if_neg h1]
      refine hstepq _ ?_
      rw [lookup_moveModelDirs_cache fs2 q hq1, hfs2q]

theorem lookup_uniPhase_cache (env : Env) (ora : Oracle) (f n : Bool) (fs : FS)
    (q : Path) (hq1 : isUnder ["root", ".cache"] q = false) (hq2 : ¬ q = ["root"]) :
    lookup (uniPhase env ora f n fs) q = lookup fs q := by
  unfold uniPhase
  by_cases hc : f = true ∧ (n = true ∨ ¬ check_unimernet_complete fs = true)
  · rw [if_pos hc]
    by_cases h2 : (download_unimernet_models ora fs).2 = true
    · rw [if_pos h2, lookup_create_mfr_symlinks_cache env _ q hq1]
      exact lookup_download_unimernet_cache ora fs q hq1 hq2
    · rw [if_neg h2]
      exact lookup_download_unimernet_cache ora fs q hq1 hq2
  · rw [if_neg hc]

/-! ## Claim C3 — minimum-size threshold boundary -/

/-- Claim C3 counterexample: a `pytorch_model.bin` of size exactly
`T = 100 MB = 104857600` bytes is reported incomplete by
`check_unimernet_complete` (the code compares with a strict `>`), whereas
the claim states that a file of exactly `T` bytes is reported complete. -/
theorem threshold_exact_T_reported_incomplete :
    check_unimernet_complete (unimernetStoreWithBin (100 * 1024 * 1024)) = false := by
  decide

/-- Claim C3 (amended): for the formula-recognition weight file with
threshold `T = 100 MB`, a file of size `T - 1` bytes is reported too small,
and so is a file of size exactly `T`; the integrity check reports complete
exactly for sizes strictly greater than `T`. -/
theorem threshold_strictly_above (s : Nat) :
    check_unimernet_complete (unimernetStoreWithBin s) =
      decide (100 * 1024 * 1024 < s) := by
  rfl

/-! ## Claim C10 — formula recognition defaults to enabled -/

/-- Claim C10: when no configuration file exists at either probed path, or
every existing one fails to parse (`readEnable` yields `none` for both the
repo-local config and `/root/magic-pdf.json`), `is_formula_enabled` returns
`True`, and `create_config` then records the formula component as enabled. -/
theorem formula_defaults_to_enabled (fs : FS)
    (h1 : readEnable fs repo_config_path = none)
    (h2 : readEnable fs config_path = none) :
    is_formula_enabled fs = true ∧
      lookup (create_config fs) config_path =
        some (Entry.file (configSize true) (FileContent.generatedConfig true)) := by
  have hb : is_formula_enabled fs = true := by
    unfold is_formula_enabled
    rw [h1, h2]
  refine ⟨hb, ?_⟩
  unfold create_config
  rw [hb, lookup_setEntry, if_pos rfl]

/-- Witness for C10 at the empty filesystem (no config exists anywhere). -/
theorem formula_defaults_to_enabled_witness :
    is_formula_enabled ([] : FS) = true ∧
      lookup (create_config ([] : FS)) config_path =
        some (Entry.file (configSize true) (FileContent.generatedConfig true)) :=
  formula_defaults_to_enabled [] (by decide) (by decide)

/-! ## Claim C7 — no copy fallback on symlink failure -/

/-- Claim C7 counterexample: on a filesystem without symlink support, with
the alias path free and the canonical target present, the alias pass leaves
the filesystem unchanged — the alias neither resolves nor is copied
(`create_symlink_safe` catches the error and returns `False`; there is no
recursive-copy fallback in the code). -/
theorem symlink_failure_leaves_alias_unresolved :
    create_mfr_symlinks envNoSymlinkSupport mfrOnlyStore = mfrOnlyStore ∧
      pathExists mfrOnlyStore (mfr_dir ++ ["unimernet_hf_small_2503"]) = false ∧
      pathExists (create_mfr_symlinks envNoSymlinkSupport mfrOnlyStore)
        (mfr_dir ++ ["unimernet_hf_small_2503"]) = false := by
  decide

/-- Claim C7 (amended): when symlink creation fails (symlinks unsupported),
`create_symlink_safe` merely logs and returns `False`: it removes a stale
symlink occupying the alias path but performs no copy, leaving the alias
unresolved. -/
theorem create_symlink_safe_failure_no_fallback (env : Env) (fs : FS)
    (target_path link_path : Path) (h : env.symlinkOk = false) :
    create_symlink_safe env fs target_path link_path =
      (if islink fs link_path then removeEntry fs link_path else fs, false) := by
  unfold create_symlink_safe
  rw [h]
  by_cases hl : islink fs link_path = true
  · simp [hl]
  · simp only [hl, Bool.false_eq_true, if_false]
    by_cases he : pathExists fs link_path = true <;> simp [he]

/-- Witness for the amended C7 on a concrete store: the alias path holds a
stale symlink, which is removed and not recreated. -/
theorem create_symlink_safe_failure_no_fallback_witness :
    create_symlink_safe envNoSymlinkSupport
        [(mfr_dir ++ ["unimernet_hf_small_2503"], Entry.symlink unimernet_small_dir)]
        unimernet_small_dir (mfr_dir ++ ["unimernet_hf_small_2503"]) =
      (if islink [(mfr_dir ++ ["unimernet_hf_small_2503"], Entry.symlink unimernet_small_dir)]
            (mfr_dir ++ ["unimernet_hf_small_2503"]) then
        removeEntry [(mfr_dir ++ ["unimernet_hf_small_2503"], Entry.symlink unimernet_small_dir)]
          (mfr_dir ++ ["unimernet_hf_small_2503"])
      else [(mfr_dir ++ ["unimernet_hf_small_2503"], Entry.symlink unimernet_small_dir)], false) :=
  create_symlink_safe_failure_no_fallback envNoSymlinkSupport _ _ _ rfl

/-! ## Claim C6 — a real directory at an alias path is never touched -/

/-- Claim C6: for every alias name of the resolver's map whose path holds a
real (non-symlink) directory before the pass, every entry at or beneath that
path — the directory itself and any marker file inside — is unchanged after
`create_mfr_symlinks`: the resolver skips it and never deletes or
overwrites it. -/
theorem alias_real_dir_untouched (env : Env) (fs : FS) (a : String)
    ( _hmem : a ∈ symlink_map)
    (ha : lookup fs (mfr_dir ++ [a]) = some Entry.dir)
    (q : Path) (hq : isUnder (mfr_dir ++ [a]) q = true) :
    lookup (create_mfr_symlinks env fs) q = lookup fs q := by
  unfold create_mfr_symlinks
  by_cases h1 : pathExists fs mfr_dir = true
  · rw [if_neg (not_not_intro h1)]
    by_cases h2 : pathExists fs unimernet_small_dir = true ∧
        isdir fs unimernet_small_dir = true
    · rw [if_pos h2]
      exact foldl_mfrAliasStep_preserves env symlink_map fs a ha q hq
    · rw [if_neg h2]
  · rw [if_pos h1]

/-- Witness for C6: a marker file inside a pre-existing real alias directory
survives the pass unchanged (the first alias of the map, on a store where
the canonical target exists and the other aliases do get created). -/
theorem alias_real_dir_untouched_witness :
    lookup (create_mfr_symlinks envPlain aliasDirStore)
        (mfr_dir ++ ["unimernet_hf_small_2503", "marker.txt"]) =
      lookup aliasDirStore (mfr_dir ++ ["unimernet_hf_small_2503", "marker.txt"]) :=
  alias_real_dir_untouched envPlain aliasDirStore "unimernet_hf_small_2503"
    (by decide) (by decide) _ (by decide)

/-! ## Claim C4 — inspection ignores file sizes -/

/-- Claim C4 counterexample: a store whose required canonical files exist
with size 0 bytes is classified as complete by `check_models_exist`, and a
full `main` run on it goes straight to config emission — exit code 0 and a
final state that is exactly `create_config` of the input, with no repair and
no fetch, contradicting the claimed routing into repair/fetching. -/
theorem zero_byte_store_skips_to_config :
    check_models_exist zeroByteStore = true ∧
      main envPlain oraDown zeroByteStore = (create_config zeroByteStore, 0) := by
  decide

theorem main_skip_path (env : Env) (ora : Oracle) (fs : FS)
    (hforce : env.force = false)
    (hm : check_models_exist fs = true)
    (hfe : is_formula_enabled fs = false) :
    main env ora fs = (create_config fs, 0) := by
  unfold main
  rw [hfe]
  simp only [Bool.false_eq_true, false_and, if_false, hforce, hm]
  simp [finishRun, uniPhase]

/-- Claim C4 (amended): the inspection phase checks only path existence,
never size — a 0-byte required file counts as present — and whenever both
key files exist (with `--force` off and formula recognition disabled so no
other phase runs) `main` skips directly to config emission: the final state
is the input with only the descriptor written, exit code 0. -/
theorem inspection_ignores_size (env : Env) (ora : Oracle) (fs : FS)
    (hforce : env.force = false)
    (hm : check_models_exist fs = true)
    (hfe : is_formula_enabled fs = false) :
    main env ora fs = (create_config fs, 0) :=
  main_skip_path env ora fs hforce hm hfe

/-- Witness for the amended C4 at the 0-byte store. -/
theorem inspection_ignores_size_witness :
    is_formula_enabled zeroByteStore = false ∧
      check_models_exist zeroByteStore = true ∧
      main envPlain oraDown zeroByteStore = (create_config zeroByteStore, 0) :=
  ⟨by decide, by decide,
    inspection_ignores_size envPlain oraDown zeroByteStore rfl (by decide) (by decide)⟩

/-! ## Claim C5 — deletion before replacement is staged -/

set_option maxHeartbeats 4000000 in
/-- Claim C5 counterexample: a run on a store that contains an (incomplete
but present) `MFR/unimernet_small/pytorch_model.bin` whose UniMERNet fetch
then raises: `download_unimernet_models` deletes the existing directory
*before* downloading, so after the (failed) run the artifact the store
contained at the start is gone — no replacement was ever staged — and the
run even exits 0. -/
theorem failed_download_loses_existing_artifact :
    lookup incompleteUniStore (unimernet_small_dir ++ ["pytorch_model.bin"]) =
      some (Entry.file 50 (FileContent.raw 7)) ∧
      (main envPlain oraDown incompleteUniStore).2 = 0 ∧
      lookup (main envPlain oraDown incompleteUniStore).1
        (unimernet_small_dir ++ ["pytorch_model.bin"]) = none := by
  decide

/-- Claim C5 (amended): the base-model path does satisfy the claim — when
the base fetch raises, `download_models` returns `False` and preserves every
entry the filesystem already had (it only creates missing directories) — but
the UniMERNet path does not: `download_unimernet_models` deletes the
existing `MFR/unimernet_small` before its replacement is downloaded, so a
failed UniMERNet fetch loses that component. -/
theorem base_fetch_failure_preserves_store (env : Env) (ora : Oracle) (fs : FS)
    (h : ora.baseFetch = none) (p : Path) (e : Entry)
    (hp : lookup fs p = some e) :
    (download_models env ora fs).2 = false ∧
      lookup (download_models env ora fs).1 p = some e := by
  rw [download_models_fetch_none env ora fs h]
  dsimp only
  exact ⟨rfl, lookup_mkdirp_some (mkdirp (mkdirp fs models_dir) hf_home)
    temp_download_dir p e (lookup_mkdirp_some (mkdirp fs models_dir) hf_home p e
      (lookup_mkdirp_some fs models_dir p e hp))⟩

/-- Witness for the amended C5: with the registry down, `download_models`
fails while the store's layout weight file survives in place. -/
theorem base_fetch_failure_preserves_store_witness :
    (download_models envPlain oraDown incompleteUniStore).2 = false ∧
      lookup (download_models envPlain oraDown incompleteUniStore).1 layout_nested =
        some (Entry.file 5 (FileContent.raw 1)) :=
  base_fetch_failure_preserves_store envPlain oraDown incompleteUniStore rfl
    layout_nested _ (by decide)

/-! ## Claim C8 — reconciliation of an already-canonical tree -/

set_option maxHeartbeats 2000000 in
/-- Claim C8 counterexample: on a store that is already in canonical layout
(nested key files present, no flat-layout files) but also holds
`MFR/unimernet_small` with no configuration present (formula recognition
defaults to enabled), `create_directory_structure` is *not* a no-op: it
creates the MFR alias symlinks, a filesystem mutation. -/
theorem canonical_pass_creates_symlinks :
    lookup incompleteUniStore (mfr_dir ++ ["unimernet_hf_small_2503"]) = none ∧
      lookup (create_directory_structure envPlain incompleteUniStore)
        (mfr_dir ++ ["unimernet_hf_small_2503"]) =
        some (Entry.symlink unimernet_small_dir) := by
  decide

theorem foldl_id_of_mem {α : Type} (l : List α) (f : FS → α → FS) (fs : FS)
    (h : ∀ a ∈ l, f fs a = fs) : l.foldl f fs = fs := by
  induction l with
  | nil => rfl
  | cons a as ih =>
    rw [List.foldl_cons, h a (List.mem_cons_self a as)]
    exact ih (fun b hb => h b (List.mem_cons_of_mem a hb))

/-- Claim C8 (amended): on an already-canonical tree (nested key files
present, no flat-layout file, no stray non-directory children of `MFD/`)
the Layout and MFD repair phases do nothing, and the whole
`create_directory_structure` pass is a literal filesystem no-op provided
additionally that formula recognition is disabled or the `MFR` directory is
absent; otherwise the pass may still create or refresh the MFR alias
symlinks (the counterexample). -/
theorem reconciler_noop_on_canonical_tree (env : Env) (fs : FS)
    (h1 : pathExists fs layout_flat = false)
    (h2 : pathExists fs mfd_flat = false)
    (h3 : ∀ item ∈ childNames fs mfd_dir,
      item = "YOLO" ∨ isdir fs (mfd_dir ++ [item]) = true)
    (h4 : is_formula_enabled fs = false ∨ pathExists fs mfr_dir = false) :
    create_directory_structure env fs = fs := by
  have e1 : fixLayout fs = fs := by
    unfold fixLayout
    rw [if_neg (fun hc => not_true_of_false h1 hc.1)]
  have e2 : fixMfdWeights fs = fs := by
    unfold fixMfdWeights
    rw [if_neg (fun hc => not_true_of_false h2 hc.1)]
  have e3 : fixMfdStray fs = fs := by
    unfold fixMfdStray
    by_cases hmd : pathExists fs mfd_dir = true
    · rw [if_pos hmd]
      apply foldl_id_of_mem
      intro a ha
      rcases h3 a ha with hy | hdira
      · rw [if_neg (fun hcc => hcc.1 hy)]
      · rw [if_neg (fun hcc => hcc.2 hdira)]
    · rw [if_neg hmd]
  unfold create_directory_structure
  rw [e1, e2, e3]
  rcases h4 with hfe | hmfr
  · rw [if_neg (not_true_of_false hfe)]
  · by_cases hfor : is_formula_enabled fs = true
    · rw [if_pos hfor]
      unfold create_mfr_symlinks
      rw [if_pos (not_true_of_false hmfr)]
    · rw [if_neg hfor]

/-- Witness for the amended C8: the 0-byte canonical store (formula disabled
by its repo config, no MFR) is left literally unchanged by the pass. -/
theorem reconciler_noop_on_canonical_tree_witness :
    pathExists zeroByteStore layout_flat = false ∧
      create_directory_structure envPlain zeroByteStore = zeroByteStore :=
  ⟨by decide, reconciler_noop_on_canonical_tree envPlain zeroByteStore
    (by decide) (by decide) (by decide) (Or.inl (by decide))⟩

/-! ## Claim C2 — failed required fetch: exit code, descriptor, store -/

set_option maxHeartbeats 1000000 in
/-- Claim C2 counterexample: a run whose base fetch raises does exit 1 with
no descriptor written, but the canonical store is *not* unchanged: the
structural-repair pass that runs before the fetch moved the flat layout file
to its canonical nested path. -/
theorem failed_fetch_still_mutates_store :
    (main envPlain oraDown flatLayoutStore).2 = 1 ∧
      lookup (main envPlain oraDown flatLayoutStore).1 config_path = none ∧
      lookup flatLayoutStore layout_nested = none ∧
      lookup (main envPlain oraDown flatLayoutStore).1 layout_nested =
        some (Entry.file 5 (FileContent.raw 1)) := by
  decide

theorem main_exit_or_config (env : Env) (ora : Oracle) (fs : FS) :
    (main env ora fs).2 = 0 ∨
      lookup (main env ora fs).1 config_path = lookup fs config_path := by
  have hq1 : isUnder ["root", ".cache"] config_path = false := by decide
  have hq2 : ¬ config_path = ["root"] := by decide
  unfold main
  dsimp only
  by_cases hA : is_formula_enabled fs = true ∧ storeNonEmpty fs = true
  · rw [if_pos hA]
    dsimp only
    set fs1 := create_directory_structure env fs with hfs1
    have hc1 : lookup fs1 config_path = lookup fs config_path := by
      rw [hfs1]
      exact lookup_create_directory_structure_cache env fs config_path hq1 hq2
    by_cases hB : env.force = true ∨ ¬ check_models_exist fs1 = true
    · rw [if_pos hB]
      by_cases hC : ¬ env.force = true ∧ storeNonEmpty fs1 = true
      · rw [if_pos hC]
        by_cases hD : check_models_exist (create_directory_structure env fs1) = true
        · rw [if_pos hD]
          exact Or.inl rfl
        · rw [if_neg hD]
          by_cases hE : (download_models env ora (create_directory_structure env fs1)).2 = true
          · rw [if_pos hE]
            exact Or.inl rfl
          · rw [if_neg hE]
            refine Or.inr ?_
            dsimp only
            rw [lookup_download_models_cache env ora _ config_path hq1 hq2,
              lookup_create_directory_structure_cache env fs1 config_path hq1 hq2, hc1]
      · rw [if_neg hC]
        by_cases hE : (download_models env ora fs1).2 = true
        · rw [if_pos hE]
          exact Or.inl rfl
        · rw [if_neg hE]
          refine Or.inr ?_
          dsimp only
          rw [lookup_download_models_cache env ora fs1 config_path hq1 hq2, hc1]
    · rw [if_neg hB]
      exact Or.inl rfl
  · rw [if_neg hA]
    dsimp only
    by_cases hB : env.force = true ∨ ¬ check_models_exist fs = true
    · rw [if_pos hB]
      by_cases hC : ¬ env.force = true ∧ storeNonEmpty fs = true
      · rw [if_pos hC]
        by_cases hD : check_models_exist (create_directory_structure env fs) = true
        · rw [if_pos hD]
          exact Or.inl rfl
        · rw [if_neg hD]
          by_cases hE : (download_models env ora (create_directory_structure env fs)).2 = true
          · rw [if_pos hE]
            exact Or.inl rfl
          · rw [if_neg hE]
            refine Or.inr ?_
            dsimp only
            rw [lookup_download_models_cache env ora _ config_path hq1 hq2,
              lookup_create_directory_structure_cache env fs config_path hq1 hq2]
      · rw [if_neg hC]
        by_cases hE : (download_models env ora fs).2 = true
        · rw [if_pos hE]
          exact Or.inl rfl
        · rw [if_neg hE]
          refine Or.inr ?_
          dsimp only
          rw [lookup_download_models_cache env ora fs config_path hq1 hq2]
    · rw [if_neg hB]
      exact Or.inl rfl

/-- Claim C2 (amended): whenever a run exits non-zero (which is exactly the
required-fetch-failure outcome), the descriptor is not written by that run —
the entry at `/root/magic-pdf.json` is exactly what it was before — but the
canonical store is not necessarily unchanged: the repair pass that runs
before the fetch may already have moved files to canonical paths and created
directories (the counterexample). -/
theorem nonzero_exit_leaves_no_descriptor (env : Env) (ora : Oracle) (fs : FS)
    (h : ¬ (main env ora fs).2 = 0) :
    lookup (main env ora fs).1 config_path = lookup fs config_path :=
  (main_exit_or_config env ora fs).resolve_left h

set_option maxHeartbeats 1000000 in
/-- Witness for the amended C2 on the flat-layout store with the registry
down: exit 1 and the descriptor entry untouched. -/
theorem nonzero_exit_leaves_no_descriptor_witness :
    ¬ (main envPlain oraDown flatLayoutStore).2 = 0 ∧
      lookup (main envPlain oraDown flatLayoutStore).1 config_path =
        lookup flatLayoutStore config_path :=
  ⟨by decide, nonzero_exit_leaves_no_descriptor envPlain oraDown flatLayoutStore (by decide)⟩

/-! ## Claim C1 — optional-component failure and the emitted flag -/

theorem isUnder_false_trans (pre mid q : Path) (hpm : isUnder pre mid = true)
    (hq : isUnder pre q = false) : isUnder mid q = false := by
  cases hc : isUnder mid q with
  | true =>
    have := isUnder_trans pre mid q hpm hc
    rw [hq] at this
    exact Bool.noConfusion this
  | false => rfl

theorem fixMfdStray_preserves_some (fs : FS) (q : Path) (e : Entry)
    (hq : isUnder mfd_dir q = false) (h : lookup fs q = some e) :
    lookup (fixMfdStray fs) q = some e := by
  unfold fixMfdStray
  by_cases hmd : pathExists fs mfd_dir = true
  · rw [if_pos hmd]
    refine lookup_foldl_some _ _ _ _ _ (fun acc a _ hacc => ?_) h
    by_cases h1 : a ≠ "YOLO" ∧ ¬ isdir acc (mfd_dir ++ [a]) = true
    · rw [if_pos h1]
      by_cases h2 : ¬ pathExists acc (mfd_yolo ++ [a]) = true
      · rw [if_pos h2]
        rw [lookup_moveSubtree_outside _ _ _ _
          (not_true_of_false (not_isUnder_extend mfd_dir [a] q hq))
          (not_true_of_false (not_isUnder_extend mfd_yolo [a] q
            (isUnder_false_trans mfd_dir mfd_yolo q (by decide) hq)))]
        exact lookup_mkdirp_some acc mfd_yolo q e hacc
      · rw [if_neg h2]
        exact hacc
    · rw [if_neg h1]
      exact hacc
  · rw [if_neg hmd]
    exact h

theorem fixMfdStray_preserves_yolo (fs : FS) (s : Nat) (c : FileContent)
    (h : lookup fs yolo_model = some (Entry.file s c)) :
    lookup (fixMfdStray fs) yolo_model = some (Entry.file s c) := by
  unfold fixMfdStray
  by_cases hmd : pathExists fs mfd_dir = true
  · rw [if_pos hmd]
    refine lookup_foldl_some _ _ _ _ _ (fun acc a _ hacc => ?_) h
    by_cases h1 : a ≠ "YOLO" ∧ ¬ isdir acc (mfd_dir ++ [a]) = true
    · rw [if_pos h1]
      by_cases h2 : ¬ pathExists acc (mfd_yolo ++ [a]) = true
      · rw [if_pos h2]
        have ha : ¬ a = "yolo_v8_ft.pt" := by
          intro hc
          apply h2
          rw [hc]
          exact pathExists_of_file acc yolo_model s c hacc
        have hsrc : ¬ isUnder (mfd_dir ++ [a]) yolo_model = true := by
          intro hc
          obtain ⟨r, hr⟩ := isUnder_singleton_decomp mfd_dir a yolo_model hc
          have hy : yolo_model = mfd_dir ++ ["YOLO", "yolo_v8_ft.pt"] := by decide
          rw [hy] at hr
          have := List.append_cancel_left hr.symm
          exact h1.1 (List.head_eq_of_cons_eq this.symm).symm
        have hdst : ¬ isUnder (mfd_yolo ++ [a]) yolo_model = true := by
          intro hc
          obtain ⟨r, hr⟩ := isUnder_singleton_decomp mfd_yolo a yolo_model hc
          have hy : yolo_model = mfd_yolo ++ ["yolo_v8_ft.pt"] := by decide
          rw [hy] at hr
          have := List.append_cancel_left hr.symm
          exact ha (List.head_eq_of_cons_eq this.symm).symm
        rw [lookup_moveSubtree_outside _ _ _ _ hsrc hdst]
        exact lookup_mkdirp_some acc mfd_yolo yolo_model _ hacc
      · rw [if_neg h2]
        exact hacc
    · rw [if_neg h1]
      exact hacc
  · rw [if_neg hmd]
    exact h

theorem cds_preserves_keys (env : Env) (fs : FS) (s1 s2 : Nat)
    (c1 c2 : FileContent)
    (hmd : lookup fs models_dir = some Entry.dir)
    (hk1 : lookup fs layout_nested = some (Entry.file s1 c1))
    (hk2 : lookup fs yolo_model = some (Entry.file s2 c2)) :
    lookup (create_directory_structure env fs) models_dir = some Entry.dir ∧
      lookup (create_directory_structure env fs) layout_nested =
        some (Entry.file s1 c1) ∧
      lookup (create_directory_structure env fs) yolo_model =
        some (Entry.file s2 c2) := by
  have e1 : fixLayout fs = fs :=
    fixLayout_noop_of_nested fs (pathExists_of_file fs layout_nested s1 c1 hk1)
  have e2 : fixMfdWeights fs = fs :=
    fixMfdWeights_noop_of_yolo fs (pathExists_of_file fs yolo_model s2 c2 hk2)
  have hstray_md : lookup (fixMfdStray fs) models_dir = some Entry.dir :=
    fixMfdStray_preserves_some fs models_dir _ (by decide) hmd
  have hstray_k1 : lookup (fixMfdStray fs) layout_nested = some (Entry.file s1 c1) :=
    fixMfdStray_preserves_some fs layout_nested _ (by decide) hk1
  have hstray_k2 : lookup (fixMfdStray fs) yolo_model = some (Entry.file s2 c2) :=
    fixMfdStray_preserves_yolo fs s2 c2 hk2
  unfold create_directory_structure
  rw [e1, e2]
  by_cases hfe : is_formula_enabled (fixMfdStray fs) = true
  · rw [if_pos hfe]
    refine ⟨?_, ?_, ?_⟩ <;>
      rw [lookup_create_mfr_symlinks_not_under_mfr env _ _ (by decide)]
    · exact hstray_md
    · exact hstray_k1
    · exact hstray_k2
  · rw [if_neg hfe]
    exact ⟨hstray_md, hstray_k1, hstray_k2⟩

set_option maxHeartbeats 2000000 in
/-- Claim C1 counterexample: starting from an empty store, the base fetch
succeeds (canonical snapshot, no usable MFR weights) and the UniMERNet
download then fails.  The run does reach config emission with exit code 0 —
but the descriptor records the formula-recognition flag as *true* (the
configured default), not false as the claim states; the component is in fact
still incomplete. -/
theorem optional_failure_config_records_enabled :
    (main envPlain oraBaseOnly []).2 = 0 ∧
      lookup (main envPlain oraBaseOnly []).1 config_path =
        some (Entry.file (configSize true) (FileContent.generatedConfig true)) ∧
      check_unimernet_complete (main envPlain oraBaseOnly []).1 = false := by
  decide

/-- Claim C1 (amended): when formula recognition is enabled (no config file
anywhere, so the default applies) and the base models are present, a run
whose UniMERNet fetch raises still reaches config emission with exit code 0,
and the descriptor records the formula flag as *true* — the configured
enablement — regardless of the failure; the failure is only logged, never
recorded in the descriptor. -/
theorem optional_failure_still_writes_enabled_config (env : Env) (ora : Oracle)
    (fs : FS) (s1 s2 : Nat) (c1 c2 : FileContent)
    (hforce : env.force = false)
    ( _huni : ora.unimernetFetch = none)
    (hrepo : lookup fs repo_config_path = none)
    (hroot : lookup fs config_path = none)
    (hmd : lookup fs models_dir = some Entry.dir)
    (hk1 : lookup fs layout_nested = some (Entry.file s1 c1))
    (hk2 : lookup fs yolo_model = some (Entry.file s2 c2)) :
    (main env ora fs).2 = 0 ∧
      lookup (main env ora fs).1 config_path =
        some (Entry.file (configSize true) (FileContent.generatedConfig true)) := by
  have hq1r : isUnder ["root", ".cache"] repo_config_path = false := by decide
  have hq2r : ¬ repo_config_path = ["root"] := by decide
  have hq1c : isUnder ["root", ".cache"] config_path = false := by decide
  have hq2c : ¬ config_path = ["root"] := by decide
  have hfe : is_formula_enabled fs = true := is_formula_enabled_of_none fs hrepo hroot
  have hnonempty : storeNonEmpty fs = true := by
    unfold storeNonEmpty
    rw [pathExists_of_dir fs models_dir hmd]
    have := childNames_ne_nil_of_child fs models_dir layout_nested _ hk1
      (by decide) (by decide)
    simp [this]
  obtain ⟨hcd, hc1, hc2⟩ := cds_preserves_keys env fs s1 s2 c1 c2 hmd hk1 hk2
  have hc1' : lookup (create_directory_structure env fs)
      (models_dir ++ ["Layout", "LayoutLMv3", "model_final.pth"]) =
      some (Entry.file s1 c1) := hc1
  have hc2' : lookup (create_directory_structure env fs)
      (models_dir ++ ["MFD", "YOLO", "yolo_v8_ft.pt"]) =
      some (Entry.file s2 c2) := hc2
  have hcheck : check_models_exist (create_directory_structure env fs) = true := by
    unfold check_models_exist
    rw [pathExists_of_dir _ models_dir hcd,
      pathExists_of_file _ _ s1 c1 hc1', pathExists_of_file _ _ s2 c2 hc2']
    rfl
  have hcfg_repo : lookup (create_directory_structure env fs) repo_config_path = none := by
    rw [lookup_create_directory_structure_cache env fs _ hq1r hq2r]
    exact hrepo
  have hcfg_root : lookup (create_directory_structure env fs) config_path = none := by
    rw [lookup_create_directory_structure_cache env fs _ hq1c hq2c]
    exact hroot
  have hA : is_formula_enabled fs = true ∧ storeNonEmpty fs = true := ⟨hfe, hnonempty⟩
  have hB : ¬ (env.force = true ∨
      ¬ check_models_exist (create_directory_structure env fs) = true) := fun hc =>
    hc.elim (fun hf => Bool.noConfusion (hforce ▸ hf)) (fun hnc => hnc hcheck)
  unfold main
  dsimp only
  rw [if_pos hA]
  dsimp only
  rw [if_neg hB]
  unfold finishRun
  refine ⟨rfl, ?_⟩
  dsimp only
  set fs3 := uniPhase env ora (is_formula_enabled fs)
    (! check_unimernet_complete (create_directory_structure env fs))
    (create_directory_structure env fs) with hfs3
  have hu_repo : lookup fs3 repo_config_path = none := by
    rw [hfs3, lookup_uniPhase_cache env ora _ _ _ _ hq1r hq2r]
    exact hcfg_repo
  have hu_root : lookup fs3 config_path = none := by
    rw [hfs3, lookup_uniPhase_cache env ora _ _ _ _ hq1c hq2c]
    exact hcfg_root
  unfold create_config
  rw [is_formula_enabled_of_none fs3 hu_repo hu_root]
  rw [lookup_setEntry, if_pos rfl]

/-- Witness for the amended C1: the canonical store with incomplete
UniMERNet weights and no config files, registry down — exit 0 and an
enabled-flag descriptor. -/
theorem optional_failure_still_writes_enabled_config_witness :
    (main envPlain oraDown incompleteUniStore).2 = 0 ∧
      lookup (main envPlain oraDown incompleteUniStore).1 config_path =
        some (Entry.file (configSize true) (FileContent.generatedConfig true)) :=
  optional_failure_still_writes_enabled_config envPlain oraDown incompleteUniStore
    5 5 (FileContent.raw 1) (FileContent.raw 2) rfl rfl (by decide) (by decide)
    (by decide) (by decide) (by decide)

/-! ## Claim C9 — idempotence of running main twice -/

theorem readEnable_of_file (fs : FS) (p : Path) (sz : Nat) (c : FileContent)
    (h : lookup fs p = some (Entry.file sz c)) :
    readEnable fs p = parseEnable c := by
  unfold readEnable
  have hrp : realpath fs p = p := realpath_of_not_symlink fs p (fun t hc => by
    rw [h] at hc; exact Entry.noConfusion (Option.some.inj hc))
  rw [if_pos (pathExists_of_file fs p sz c h), hrp, h]

theorem is_formula_enabled_of_repo (fs : FS) (sz : Nat) (b : Bool)
    (h : lookup fs repo_config_path = some (Entry.file sz (FileContent.jsonEnable b))) :
    is_formula_enabled fs = b := by
  unfold is_formula_enabled
  rw [readEnable_of_file fs _ sz _ h]
  rfl

theorem removeEntry_removeEntry (fs : FS) (p : Path) :
    removeEntry (removeEntry fs p) p = removeEntry fs p := by
  unfold removeEntry
  rw [List.filter_filter]
  simp

theorem setEntry_setEntry (fs : FS) (p : Path) (e : Entry) :
    setEntry (setEntry fs p e) p e = setEntry fs p e := by
  unfold setEntry
  rw [removeEntry_cons, if_pos rfl, removeEntry_removeEntry]

theorem create_config_eq (fs : FS) (b : Bool) (h : is_formula_enabled fs = b) :
    create_config fs = setEntry fs config_path
      (Entry.file (configSize b) (FileContent.generatedConfig b)) := by
  unfold create_config
  rw [h]

set_option maxHeartbeats 8000000 in
/-- Claim C9 counterexample: from the empty store, with a base snapshot
lacking MFR content and a UniMERNet snapshot that holds only
`pytorch_model.pth` (so the download runs, leaves weights in place, but
reports failure because `pytorch_model.bin` is absent), the first run skips
MFR alias creation; the second run, finding the weights complete via the
`.pth` fallback, creates the alias symlinks during its repair pass — so the
store after run two differs from the store after run one, refuting
byte-identical idempotence.  Both runs exit 0. -/
theorem second_run_creates_missing_aliases :
    (main envPlain oraPthOnly []).2 = 0 ∧
      lookup (main envPlain oraPthOnly []).1
        (mfr_dir ++ ["unimernet_hf_small_2503"]) = none ∧
      (main envPlain oraPthOnly (main envPlain oraPthOnly []).1).2 = 0 ∧
      lookup (main envPlain oraPthOnly (main envPlain oraPthOnly []).1).1
        (mfr_dir ++ ["unimernet_hf_small_2503"]) =
        some (Entry.symlink unimernet_small_dir) := by
  decide

/-- Claim C9 (amended): running `main` twice is *not* idempotent in general
(counterexample: a UniMERNet download that succeeds without producing
`pytorch_model.bin` makes the second run create alias symlinks the first run
skipped).  Idempotence does hold on the no-download path: with both key
files present, `--force` off and formula recognition disabled by a parseable
config, a run produces exactly `(create_config fs, 0)` and a second run
reproduces a byte-identical store and descriptor. -/
theorem main_idempotent_on_complete_store (env : Env) (ora : Oracle) (fs : FS)
    (sz s1 s2 : Nat) (c1 c2 : FileContent)
    (hforce : env.force = false)
    (hrepo : lookup fs repo_config_path =
      some (Entry.file sz (FileContent.jsonEnable false)))
    (hmd : lookup fs models_dir = some Entry.dir)
    (hk1 : lookup fs layout_nested = some (Entry.file s1 c1))
    (hk2 : lookup fs yolo_model = some (Entry.file s2 c2)) :
    main env ora fs = (create_config fs, 0) ∧
      main env ora (main env ora fs).1 = main env ora fs := by
  have hfe : is_formula_enabled fs = false := is_formula_enabled_of_repo fs sz false hrepo
  have hk1' : lookup fs (models_dir ++ ["Layout", "LayoutLMv3", "model_final.pth"]) =
      some (Entry.file s1 c1) := hk1
  have hk2' : lookup fs (models_dir ++ ["MFD", "YOLO", "yolo_v8_ft.pt"]) =
      some (Entry.file s2 c2) := hk2
  have hcheck : check_models_exist fs = true := by
    unfold check_models_exist
    rw [pathExists_of_dir _ _ hmd, pathExists_of_file _ _ s1 c1 hk1',
      pathExists_of_file _ _ s2 c2 hk2']
    rfl
  have hrun1 : main env ora fs = (create_config fs, 0) :=
    main_skip_path env ora fs hforce hcheck hfe
  have hcc : create_config fs =
      setEntry fs config_path
        (Entry.file (configSize false) (FileContent.generatedConfig false)) :=
    create_config_eq fs false hfe
  have hrepo2 : lookup (create_config fs) repo_config_path =
      some (Entry.file sz (FileContent.jsonEnable false)) := by
    rw [hcc, lookup_setEntry, if_neg (by decide)]
    exact hrepo
  have hmd2 : lookup (create_config fs) models_dir = some Entry.dir := by
    rw [hcc, lookup_setEntry, if_neg (by decide)]
    exact hmd
  have hk1n : lookup (create_config fs)
      (models_dir ++ ["Layout", "LayoutLMv3", "model_final.pth"]) =
      some (Entry.file s1 c1) := by
    rw [hcc, lookup_setEntry, if_neg (by decide)]
    exact hk1'
  have hk2n : lookup (create_config fs)
      (models_dir ++ ["MFD", "YOLO", "yolo_v8_ft.pt"]) =
      some (Entry.file s2 c2) := by
    rw [hcc, lookup_setEntry, if_neg (by decide)]
    exact hk2'
  have hfe2 : is_formula_enabled (create_config fs) = false :=
    is_formula_enabled_of_repo _ sz false hrepo2
  have hcheck2 : check_models_exist (create_config fs) = true := by
    unfold check_models_exist
    rw [pathExists_of_dir _ _ hmd2, pathExists_of_file _ _ s1 c1 hk1n,
      pathExists_of_file _ _ s2 c2 hk2n]
    rfl
  have hrun2 : main env ora (create_config fs) =
      (create_config (create_config fs), 0) :=
    main_skip_path env ora (create_config fs) hforce hcheck2 hfe2
  have hccidem : create_config (create_config fs) = create_config fs := by
    have hcc2 : create_config (create_config fs) =
        setEntry (create_config fs) config_path
          (Entry.file (configSize false) (FileContent.generatedConfig false)) :=
      create_config_eq (create_config fs) false hfe2
    rw [hcc2, hcc, setEntry_setEntry]
  refine ⟨hrun1, ?_⟩
  rw [hrun1]
  dsimp only
  rw [hrun2, hccidem]

/-- Witness for the amended C9 on the 0-byte canonical store with its
formula-disabling repo config: the second run reproduces the first run's
state and exit code exactly. -/
theorem main_idempotent_on_complete_store_witness :
    main envPlain oraDown zeroByteStore = (create_config zeroByteStore, 0) ∧
      main envPlain oraDown (main envPlain oraDown zeroByteStore).1 =
        main envPlain oraDown zeroByteStore :=
  main_idempotent_on_complete_store envPlain oraDown zeroByteStore
    40 0 0 (FileContent.raw 1) (FileContent.raw 2) rfl (by decide) (by decide)
    (by decide) (by decide)

end MinerU
